import Mathlib

/-!
Verification of the DevPlane workspace operator and gateway against its
specification.  The Go sources are shallowly embedded: strings are lists of
characters, machine integers are `Int`/`Nat`, Kubernetes API writes are
recorded explicitly, and fallible operations return `Option`/`Except`.
-/

namespace DevPlane

/-! ## Character utilities (ASCII, as used by the Go sources)

The gateway's `sanitizeUserID` (src/unnamed/part_009) lowercases the OIDC
subject, collapses runs of characters outside `[a-z0-9]` to a single hyphen,
trims hyphens, prefixes `u-` when the result starts with a digit, and finally
truncates.  After the collapse step every character is ASCII, so Go's byte
indexing and byte slicing coincide with character operations. -/

/-- `[a-z0-9]`: the character class kept by the regex `[^a-z0-9]+` in
`sanitizeUserID`. -/
def isLowerAlnum (c : Char) : Bool :=
  (97 ≤ c.toNat && c.toNat ≤ 122) || (48 ≤ c.toNat && c.toNat ≤ 57)

/-- `[0-9]`, the byte test `s[0] >= '0' && s[0] <= '9'` in `sanitizeUserID`. -/
def isDigitCh (c : Char) : Bool :=
  48 ≤ c.toNat && c.toNat ≤ 57

/-- `strings.ToLower`, restricted to ASCII (all characters surviving the
collapse step are ASCII, which is all the later reasoning relies on). -/
def toLowerCh (c : Char) : Char :=
  if 65 ≤ c.toNat && c.toNat ≤ 90 then Char.ofNat (c.toNat + 32) else c

/-- `nonAlphaNum.ReplaceAllString(s, "-")` for the regex `[^a-z0-9]+`:
each maximal run of characters outside `[a-z0-9]` becomes one hyphen.
The boolean argument tracks whether we are inside such a run. -/
def collapseNonAlnum : Bool → List Char → List Char
  | _, [] => []
  | inRun, c :: rest =>
    if isLowerAlnum c then c :: collapseNonAlnum false rest
    else if inRun then collapseNonAlnum true rest
    else '-' :: collapseNonAlnum true rest

/-- `strings.TrimRight(s, "-")`: remove every trailing hyphen. -/
def dropTrailingHyphens : List Char → List Char
  | [] => []
  | c :: rest =>
    let r := dropTrailingHyphens rest
    if r.isEmpty && c == '-' then [] else c :: r

/-- `strings.Trim(s, "-")`: remove leading and trailing hyphens. -/
def trimHyphens (s : List Char) : List Char :=
  dropTrailingHyphens (s.dropWhile (fun c => c == '-'))

/-- `if len(s) > 0 && s[0] >= '0' && s[0] <= '9' { s = "u-" + s }`. -/
def digitStep : List Char → List Char
  | [] => []
  | c :: rest => if isDigitCh c then 'u' :: '-' :: c :: rest else c :: rest

/-- `if len(s) > 63 { s = strings.TrimRight(s[:63], "-") }`. -/
def truncStep (s : List Char) : List Char :=
  if 63 < s.length then dropTrailingHyphens (s.take 63) else s

/-- `sanitizeUserID` from src/unnamed/part_009 (lines 54-65): lowercase,
collapse non-alphanumeric runs to `-`, trim hyphens, prefix `u-` when the
result starts with a digit, and when longer than 63 bytes truncate to 63 and
trim trailing hyphens. -/
def sanitizeUserID (sub : List Char) : List Char :=
  truncStep (digitStep (trimHyphens (collapseNonAlnum false (sub.map toLowerCh))))

/-! ### Invariants of sanitized strings -/

/-- Every character is lowercase alphanumeric or a hyphen. -/
def allAlnumHyphen (s : List Char) : Bool :=
  s.all (fun c => isLowerAlnum c || c == '-')

/-- No two adjacent hyphens. -/
def noAdjHyphen : List Char → Bool
  | [] => true
  | [_] => true
  | a :: b :: rest => !(a == '-' && b == '-') && noAdjHyphen (b :: rest)

/-- The first character, when present, is not a hyphen. -/
def headNotHyphen : List Char → Bool
  | [] => true
  | c :: _ => !(c == '-')

/-- The first character, when present, is not a digit. -/
def headNotDigit : List Char → Bool
  | [] => true
  | c :: _ => !(isDigitCh c)

/-! ### Lemmas about the sanitizer -/

theorem toLowerCh_eq_self {c : Char} (h : (isLowerAlnum c || c == '-') = true) :
    toLowerCh c = c := by
  rcases Bool.or_eq_true _ _ |>.mp h with h1 | h2
  · simp only [isLowerAlnum, Bool.or_eq_true, Bool.and_eq_true,
      decide_eq_true_eq] at h1
    unfold toLowerCh
    rw [if_neg]
    simp only [Bool.and_eq_true, decide_eq_true_eq, not_and]
    omega
  · have : c = '-' := by simpa using h2
    subst this
    decide

theorem noAdjHyphen_cons_iff {a : Char} {l : List Char} :
    noAdjHyphen (a :: l) = true ↔
      ((l.head? = some '-' → a ≠ '-') ∧ noAdjHyphen l = true) := by
  cases l with
  | nil => simp [noAdjHyphen]
  | cons b r =>
    simp only [noAdjHyphen, Bool.and_eq_true, Bool.not_eq_true', List.head?_cons,
      Option.some.injEq]
    constructor
    · rintro ⟨h1, h2⟩
      refine ⟨fun hb ha => ?_, h2⟩
      subst hb; subst ha; simp at h1
    · rintro ⟨h1, h2⟩
      refine ⟨?_, h2⟩
      by_cases hb : b = '-'
      · have := h1 hb
        simp [this, hb]
      · simp [hb]

theorem noAdjHyphen_tail {a : Char} {l : List Char}
    (h : noAdjHyphen (a :: l) = true) : noAdjHyphen l = true :=
  (noAdjHyphen_cons_iff.mp h).2

theorem allAlnumHyphen_cons {a : Char} {l : List Char} :
    allAlnumHyphen (a :: l) = true ↔
      ((isLowerAlnum a || a == '-') = true ∧ allAlnumHyphen l = true) := by
  simp [allAlnumHyphen]

/-- When the list starts with a kept (alphanumeric) character, the collapse
state flag is irrelevant. -/
theorem collapseNonAlnum_true_eq_false {s : List Char}
    (h : headNotHyphen s = true) (ha : allAlnumHyphen s = true) :
    collapseNonAlnum true s = collapseNonAlnum false s := by
  cases s with
  | nil => rfl
  | cons c rest =>
    have hc : isLowerAlnum c = true := by
      rcases (Bool.or_eq_true _ _).mp (allAlnumHyphen_cons.mp ha).1 with h1 | h1
      · simpa using h1
      · exfalso
        have : c = '-' := by simpa using h1
        simp [headNotHyphen, this] at h
    simp [collapseNonAlnum, hc]

/-- The collapse step is the identity on already-collapsed strings. -/
theorem collapseNonAlnum_eq_self :
    ∀ s : List Char, allAlnumHyphen s = true → noAdjHyphen s = true →
      collapseNonAlnum false s = s := by
  intro s
  induction s with
  | nil => intro _ _; rfl
  | cons c rest ih =>
    intro ha hn
    have harest : allAlnumHyphen rest = true := (allAlnumHyphen_cons.mp ha).2
    have hnrest : noAdjHyphen rest = true := noAdjHyphen_tail hn
    rcases (Bool.or_eq_true _ _).mp (allAlnumHyphen_cons.mp ha).1 with h1 | h1
    · have hc : isLowerAlnum c = true := by simpa using h1
      simp [collapseNonAlnum, hc, ih harest hnrest]
    · have hc : c = '-' := by simpa using h1
      subst hc
      have hcm : isLowerAlnum '-' = false := by decide
      have hhead : headNotHyphen rest = true := by
        cases rest with
        | nil => rfl
        | cons b r =>
          have := (noAdjHyphen_cons_iff.mp hn).1
          simp only [List.head?_cons] at this
          simp only [headNotHyphen, Bool.not_eq_true']
          by_cases hb : b = '-'
          · exact absurd rfl (this (by rw [hb]))
          · simpa using hb
      simp only [collapseNonAlnum, hcm, Bool.false_eq_true, if_false,
        if_true, List.cons.injEq, true_and]
      rw [collapseNonAlnum_true_eq_false hhead harest]
      exact ih harest hnrest

/-- The collapse output uses only the sanitized alphabet. -/
theorem allAlnumHyphen_collapse :
    ∀ (b : Bool) (s : List Char), allAlnumHyphen (collapseNonAlnum b s) = true := by
  intro b s
  induction s generalizing b with
  | nil => cases b <;> rfl
  | cons c rest ih =>
    by_cases hc : isLowerAlnum c = true
    · simp [collapseNonAlnum, hc, allAlnumHyphen_cons, ih]
    · cases b with
      | true => simp [collapseNonAlnum, hc, ih]
      | false =>
        simp [collapseNonAlnum, hc, allAlnumHyphen_cons, ih]

/-- Inside a run, the next emitted character is alphanumeric. -/
theorem headNotHyphen_collapse_true :
    ∀ s : List Char, headNotHyphen (collapseNonAlnum true s) = true := by
  intro s
  induction s with
  | nil => rfl
  | cons c rest ih =>
    by_cases hc : isLowerAlnum c = true
    · have : c ≠ '-' := by
        intro h; rw [h] at hc; exact absurd hc (by decide)
      simp [collapseNonAlnum, hc, headNotHyphen, this]
    · simp [collapseNonAlnum, hc, ih]

/-- The collapse output never has two adjacent hyphens. -/
theorem noAdjHyphen_collapse :
    ∀ (b : Bool) (s : List Char), noAdjHyphen (collapseNonAlnum b s) = true := by
  intro b s
  induction s generalizing b with
  | nil => cases b <;> rfl
  | cons c rest ih =>
    by_cases hc : isLowerAlnum c = true
    · simp only [collapseNonAlnum, hc, if_true]
      rw [noAdjHyphen_cons_iff]
      refine ⟨?_, ih false⟩
      intro _ hceq
      rw [hceq] at hc
      exact absurd hc (by decide)
    · cases b with
      | true => simpa [collapseNonAlnum, hc] using ih true
      | false =>
        simp only [collapseNonAlnum, hc, Bool.false_eq_true, if_false]
        rw [noAdjHyphen_cons_iff]
        refine ⟨?_, ih true⟩
        intro hhead
        have := headNotHyphen_collapse_true rest
        cases hcol : collapseNonAlnum true rest with
        | nil => rw [hcol] at hhead; simp at hhead
        | cons d r =>
          rw [hcol] at hhead this
          simp only [List.head?_cons, Option.some.injEq] at hhead
          simp only [headNotHyphen, Bool.not_eq_true'] at this
          exact absurd hhead (by simpa using this)

/-! Trimming lemmas -/

theorem headNotHyphen_dropWhile (s : List Char) :
    headNotHyphen (s.dropWhile (fun c => c == '-')) = true := by
  induction s with
  | nil => rfl
  | cons c rest ih =>
    by_cases hc : (c == '-') = true
    · simpa [List.dropWhile_cons, hc] using ih
    · simp [List.dropWhile_cons, hc, headNotHyphen]

theorem allAlnumHyphen_dropWhile {s : List Char} (h : allAlnumHyphen s = true) :
    allAlnumHyphen (s.dropWhile (fun c => c == '-')) = true := by
  induction s with
  | nil => exact h
  | cons c rest ih =>
    by_cases hc : (c == '-') = true
    · simpa [List.dropWhile_cons, hc] using ih (allAlnumHyphen_cons.mp h).2
    · simpa [List.dropWhile_cons, hc] using h

theorem noAdjHyphen_dropWhile {s : List Char} (h : noAdjHyphen s = true) :
    noAdjHyphen (s.dropWhile (fun c => c == '-')) = true := by
  induction s with
  | nil => exact h
  | cons c rest ih =>
    by_cases hc : (c == '-') = true
    · simpa [List.dropWhile_cons, hc] using ih (noAdjHyphen_tail h)
    · simpa [List.dropWhile_cons, hc] using h

theorem dropWhile_eq_self_of_headNotHyphen {s : List Char}
    (h : headNotHyphen s = true) : s.dropWhile (fun c => c == '-') = s := by
  cases s with
  | nil => rfl
  | cons c rest =>
    simp only [headNotHyphen, Bool.not_eq_true'] at h
    simp [List.dropWhile_cons, h]

/-- The head survives `dropTrailingHyphens`, unless everything is dropped. -/
theorem head?_dropTrailingHyphens (s : List Char) :
    dropTrailingHyphens s = [] ∨ (dropTrailingHyphens s).head? = s.head? := by
  cases s with
  | nil => left; rfl
  | cons c rest =>
    show dropTrailingHyphens (c :: rest) = [] ∨ _
    simp only [dropTrailingHyphens]
    split
    · left; rfl
    · right; rfl

theorem allAlnumHyphen_dropTrailingHyphens {s : List Char}
    (h : allAlnumHyphen s = true) :
    allAlnumHyphen (dropTrailingHyphens s) = true := by
  induction s with
  | nil => exact h
  | cons c rest ih =>
    have hrest := ih (allAlnumHyphen_cons.mp h).2
    simp only [dropTrailingHyphens]
    split
    · rfl
    · exact allAlnumHyphen_cons.mpr ⟨(allAlnumHyphen_cons.mp h).1, hrest⟩

theorem noAdjHyphen_dropTrailingHyphens {s : List Char}
    (h : noAdjHyphen s = true) :
    noAdjHyphen (dropTrailingHyphens s) = true := by
  induction s with
  | nil => exact h
  | cons c rest ih =>
    have hrest := ih (noAdjHyphen_tail h)
    simp only [dropTrailingHyphens]
    split
    · rfl
    · rw [noAdjHyphen_cons_iff]
      refine ⟨?_, hrest⟩
      intro hd
      rcases head?_dropTrailingHyphens rest with he | he
      · rw [he] at hd; simp at hd
      · rw [he] at hd
        exact (noAdjHyphen_cons_iff.mp h).1 hd

theorem headNotHyphen_dropTrailingHyphens {s : List Char}
    (h : headNotHyphen s = true) :
    headNotHyphen (dropTrailingHyphens s) = true := by
  rcases head?_dropTrailingHyphens s with he | he
  · rw [he]; rfl
  · cases s with
    | nil => simpa using h
    | cons c rest =>
      cases hd : dropTrailingHyphens (c :: rest) with
      | nil => rfl
      | cons d r =>
        rw [hd] at he
        simp only [List.head?_cons, Option.some.injEq] at he
        subst he
        exact h

theorem headNotDigit_dropTrailingHyphens {s : List Char}
    (h : headNotDigit s = true) :
    headNotDigit (dropTrailingHyphens s) = true := by
  rcases head?_dropTrailingHyphens s with he | he
  · rw [he]; rfl
  · cases s with
    | nil => simpa using h
    | cons c rest =>
      cases hd : dropTrailingHyphens (c :: rest) with
      | nil => rfl
      | cons d r =>
        rw [hd] at he
        simp only [List.head?_cons, Option.some.injEq] at he
        subst he
        exact h

theorem dropTrailingHyphens_idem (s : List Char) :
    dropTrailingHyphens (dropTrailingHyphens s) = dropTrailingHyphens s := by
  induction s with
  | nil => rfl
  | cons c rest ih =>
    simp only [dropTrailingHyphens]
    split
    · rfl
    · rename_i hcond
      show dropTrailingHyphens (c :: dropTrailingHyphens rest) = _
      simp only [dropTrailingHyphens, ih]
      rw [if_neg hcond]

theorem length_dropTrailingHyphens_le (s : List Char) :
    (dropTrailingHyphens s).length ≤ s.length := by
  induction s with
  | nil => simp [dropTrailingHyphens]
  | cons c rest ih =>
    simp only [dropTrailingHyphens]
    split
    · simp
    · simpa using ih

/-! Take lemmas -/

theorem noAdjHyphen_take {s : List Char} (h : noAdjHyphen s = true) (n : Nat) :
    noAdjHyphen (s.take n) = true := by
  induction s generalizing n with
  | nil => simpa using h
  | cons c rest ih =>
    cases n with
    | zero => rfl
    | succ m =>
      simp only [List.take_succ_cons]
      rw [noAdjHyphen_cons_iff]
      refine ⟨?_, ih (noAdjHyphen_tail h) m⟩
      intro hd
      have : rest.head? = some '-' := by
        cases rest with
        | nil => simp at hd
        | cons b r =>
          cases m with
          | zero => simp at hd
          | succ k => simpa using hd
      exact (noAdjHyphen_cons_iff.mp h).1 this

theorem allAlnumHyphen_take {s : List Char} (h : allAlnumHyphen s = true) (n : Nat) :
    allAlnumHyphen (s.take n) = true := by
  induction s generalizing n with
  | nil => simpa using h
  | cons c rest ih =>
    cases n with
    | zero => rfl
    | succ m =>
      simp only [List.take_succ_cons]
      exact allAlnumHyphen_cons.mpr
        ⟨(allAlnumHyphen_cons.mp h).1, ih (allAlnumHyphen_cons.mp h).2 m⟩

theorem headNotHyphen_take {s : List Char} (h : headNotHyphen s = true) (n : Nat) :
    headNotHyphen (s.take n) = true := by
  cases s with
  | nil => simpa using h
  | cons c rest =>
    cases n with
    | zero => rfl
    | succ m => simpa [List.take_succ_cons, headNotHyphen] using h

theorem headNotDigit_take {s : List Char} (h : headNotDigit s = true) (n : Nat) :
    headNotDigit (s.take n) = true := by
  cases s with
  | nil => simpa using h
  | cons c rest =>
    cases n with
    | zero => rfl
    | succ m => simpa [List.take_succ_cons, headNotDigit] using h

/-! ### The sanitizer invariant and idempotence -/

/-- Shape of every `sanitizeUserID` output: sanitized alphabet, no adjacent
hyphens, no leading hyphen or digit, no trailing hyphen, at most 63 chars. -/
structure Sanitized (s : List Char) : Prop where
  alnum : allAlnumHyphen s = true
  noAdj : noAdjHyphen s = true
  headHy : headNotHyphen s = true
  headDig : headNotDigit s = true
  trail : dropTrailingHyphens s = s
  len : s.length ≤ 63

theorem dropTrailingHyphens_cons_of_fix {a : Char} {l : List Char}
    (hne : l ≠ []) (hfix : dropTrailingHyphens l = l) :
    dropTrailingHyphens (a :: l) = a :: l := by
  show (if (dropTrailingHyphens l).isEmpty && a == '-' then [] else
    a :: dropTrailingHyphens l) = a :: l
  rw [hfix]
  cases l with
  | nil => exact absurd rfl hne
  | cons b r => simp

theorem digitStep_props {s : List Char} (ha : allAlnumHyphen s = true)
    (hn : noAdjHyphen s = true) (hh : headNotHyphen s = true)
    (ht : dropTrailingHyphens s = s) :
    allAlnumHyphen (digitStep s) = true ∧ noAdjHyphen (digitStep s) = true ∧
    headNotHyphen (digitStep s) = true ∧ headNotDigit (digitStep s) = true ∧
    dropTrailingHyphens (digitStep s) = digitStep s := by
  cases s with
  | nil => exact ⟨rfl, rfl, rfl, rfl, rfl⟩
  | cons c rest =>
    by_cases hd : isDigitCh c = true
    · have hu : digitStep (c :: rest) = 'u' :: '-' :: c :: rest := by
        simp [digitStep, hd]
      rw [hu]
      have hcne : c ≠ '-' := by
        intro h
        rw [h] at hd
        exact absurd hd (by decide)
      refine ⟨?_, ?_, rfl, rfl, ?_⟩
      · rw [allAlnumHyphen_cons, allAlnumHyphen_cons]
        exact ⟨by decide, by decide, ha⟩
      · rw [noAdjHyphen_cons_iff, noAdjHyphen_cons_iff]
        refine ⟨by simp, ?_, hn⟩
        intro h
        simp only [List.head?_cons, Option.some.injEq] at h
        exact absurd h hcne
      · have h1 : dropTrailingHyphens ('-' :: c :: rest) = '-' :: c :: rest :=
          dropTrailingHyphens_cons_of_fix (by simp) ht
        exact dropTrailingHyphens_cons_of_fix (by simp) h1
    · have hu : digitStep (c :: rest) = c :: rest := by simp [digitStep, hd]
      rw [hu]
      exact ⟨ha, hn, hh, by simpa [headNotDigit] using hd, ht⟩

theorem sanitized_truncStep {s : List Char} (ha : allAlnumHyphen s = true)
    (hn : noAdjHyphen s = true) (hh : headNotHyphen s = true)
    (hd : headNotDigit s = true) (ht : dropTrailingHyphens s = s) :
    Sanitized (truncStep s) := by
  unfold truncStep
  by_cases hl : 63 < s.length
  · rw [if_pos hl]
    refine ⟨allAlnumHyphen_dropTrailingHyphens (allAlnumHyphen_take ha 63),
      noAdjHyphen_dropTrailingHyphens (noAdjHyphen_take hn 63),
      headNotHyphen_dropTrailingHyphens (headNotHyphen_take hh 63),
      headNotDigit_dropTrailingHyphens (headNotDigit_take hd 63),
      dropTrailingHyphens_idem _, ?_⟩
    calc (dropTrailingHyphens (s.take 63)).length
        ≤ (s.take 63).length := length_dropTrailingHyphens_le _
      _ ≤ 63 := by simp
  · rw [if_neg hl]
    exact ⟨ha, hn, hh, hd, ht, by omega⟩

theorem sanitized_sanitizeUserID (sub : List Char) :
    Sanitized (sanitizeUserID sub) := by
  unfold sanitizeUserID trimHyphens
  set s1 := sub.map toLowerCh with hs1
  have h2a := allAlnumHyphen_collapse false s1
  have h2n := noAdjHyphen_collapse false s1
  set s2 := collapseNonAlnum false s1 with hs2
  have hta : allAlnumHyphen (s2.dropWhile (fun c => c == '-')) = true :=
    allAlnumHyphen_dropWhile h2a
  have htn := noAdjHyphen_dropWhile h2n
  have hth := headNotHyphen_dropWhile s2
  set t := s2.dropWhile (fun c => c == '-') with htdef
  obtain ⟨h4a, h4n, h4h, h4d, h4t⟩ :=
    digitStep_props (allAlnumHyphen_dropTrailingHyphens hta)
      (noAdjHyphen_dropTrailingHyphens htn)
      (headNotHyphen_dropTrailingHyphens hth)
      (dropTrailingHyphens_idem t)
  exact sanitized_truncStep h4a h4n h4h h4d h4t

/-- A string already in sanitized shape is a fixed point of the sanitizer. -/
theorem sanitizeUserID_fixed {t : List Char} (h : Sanitized t) :
    sanitizeUserID t = t := by
  have hmap : t.map toLowerCh = t := by
    have : ∀ c ∈ t, toLowerCh c = c := by
      intro c hc
      have := h.alnum
      simp only [allAlnumHyphen, List.all_eq_true] at this
      exact toLowerCh_eq_self (this c hc)
    calc t.map toLowerCh = t.map id := List.map_congr_left this
      _ = t := List.map_id t
  have hdig : digitStep t = t := by
    cases t with
    | nil => rfl
    | cons c rest =>
      have := h.headDig
      simp only [headNotDigit, Bool.not_eq_true'] at this
      simp [digitStep, this]
  unfold sanitizeUserID trimHyphens
  rw [hmap, collapseNonAlnum_eq_self t h.alnum h.noAdj,
    dropWhile_eq_self_of_headNotHyphen h.headHy, h.trail, hdig, truncStep,
    if_neg (by have := h.len; omega : ¬ 63 < t.length)]

/-- C8.  Sanitizing a user subject is idempotent:
`sanitizeUserID (sanitizeUserID x) = sanitizeUserID x` for every subject `x`,
where `sanitizeUserID` is the userID derivation of src/unnamed/part_009
(lowercase, collapse non-alphanumeric runs to one hyphen, trim hyphens,
prefix `u-` before a leading digit, truncate and trim a trailing hyphen). -/
theorem sanitizeUserID_idempotent (x : List Char) :
    sanitizeUserID (sanitizeUserID x) = sanitizeUserID x :=
  sanitizeUserID_fixed (sanitized_sanitizeUserID x)

/-! ## Workspace data model (src/unnamed/part_002, api/v1alpha1) -/

/-- `AIProvider`: one AI backend entry. -/
structure AIProvider where
  name : List Char
  endpoint : List Char
  models : List (List Char)
  deriving Repr, DecidableEq

/-- `AIConfiguration`: providers plus optional egress overrides. -/
structure AIConfiguration where
  providers : List AIProvider
  egressNamespaces : List (List Char)
  egressPorts : List Int
  deriving Repr, DecidableEq

/-- `UserInfo`. -/
structure UserInfo where
  id : List Char
  email : List Char
  deriving Repr, DecidableEq

/-- `ResourceRequirements`: platform quantity strings. -/
structure ResourceRequirements where
  cpu : List Char
  memory : List Char
  storage : List Char
  deriving Repr, DecidableEq

/-- `PersistenceConfig` (empty storageClass means unset). -/
structure PersistenceConfig where
  storageClass : List Char
  deriving Repr, DecidableEq

/-- `WorkspaceSpec`. -/
structure WorkspaceSpec where
  user : UserInfo
  resources : ResourceRequirements
  aiConfig : AIConfiguration
  persistence : PersistenceConfig
  deriving Repr, DecidableEq

/-- Workspace phase; the empty string phase is a distinct value that the
gateway writes when clearing a Stopped workspace. -/
inductive WorkspacePhase where
  | empty
  | pending
  | creating
  | running
  | failed
  | stopped
  deriving Repr, DecidableEq

/-- `WorkspaceStatus`; `lastAccessed` is `none` for the zero time. -/
structure WorkspaceStatus where
  phase : WorkspacePhase
  podName : List Char
  serviceEndpoint : List Char
  message : String
  lastAccessed : Option Nat
  deriving Repr, DecidableEq

/-! ## Spec validation (src/pkg/workspace/resources.go, ValidateSpec,
lines 478-531)

`resource.ParseQuantity` is a Kubernetes library call, external to this
repository, so it is abstracted as the `parseQty` oracle. -/

/-- The regex `[a-z0-9]([a-z0-9-]*[a-z0-9])?` anchored at both ends:
nonempty, starts and ends alphanumeric, hyphens allowed in between. -/
def isDNSLabel : List Char → Bool
  | [] => false
  | c :: rest =>
    match rest.getLast? with
    | none => isLowerAlnum c
    | some lastc =>
      isLowerAlnum c && isLowerAlnum lastc &&
        rest.dropLast.all (fun d => isLowerAlnum d || d == '-')

/-- The per-provider checks of the `for i, p := range s.AIConfig.Providers`
loop (index formatting in the messages is dropped). -/
def firstProviderError : List AIProvider → Option String
  | [] => none
  | p :: rest =>
    if p.name = [] then some "spec.aiConfig.providers name is required"
    else if p.endpoint = [] then some "spec.aiConfig.providers endpoint is required"
    else if p.models = [] then some "spec.aiConfig.providers models must have at least one entry"
    else firstProviderError rest

/-- `ValidateSpec`: `none` means the spec was admitted. -/
def validateSpec (parseQty : List Char → Bool) (s : WorkspaceSpec) : Option String :=
  if s.user.id = [] then some "spec.user.id is required"
  else if 63 < s.user.id.length then
    some "spec.user.id must be 63 characters or fewer"
  else if !(isDNSLabel s.user.id) then
    some "spec.user.id must be a valid DNS label"
  else if s.user.email = [] then some "spec.user.email is required"
  else if s.resources.storage = [] then some "spec.resources.storage is required"
  else if s.resources.cpu = [] then some "spec.resources.cpu is required"
  else if s.resources.memory = [] then some "spec.resources.memory is required"
  else if !(parseQty s.resources.cpu) then some "spec.resources.cpu invalid"
  else if !(parseQty s.resources.memory) then some "spec.resources.memory invalid"
  else if !(parseQty s.resources.storage) then some "spec.resources.storage invalid"
  else if s.aiConfig.providers = [] then
    some "spec.aiConfig.providers must have at least one entry"
  else firstProviderError s.aiConfig.providers

/-- A well-formed workspace spec used in concrete scenarios, with a chosen
user id. -/
def specWithID (id : List Char) : WorkspaceSpec :=
  { user := { id := id, email := "a@example.com".toList }
    resources := { cpu := "1".toList, memory := "2Gi".toList, storage := "20Gi".toList }
    aiConfig :=
      { providers := [{ name := "vllm".toList, endpoint := "http://vllm:8000".toList,
                        models := ["m".toList] }]
        egressNamespaces := []
        egressPorts := [] }
    persistence := { storageClass := [] } }

/-- C1.  The claim says spec validation admits only user ids of length at
most 49 and that `sanitizeUserID` truncates to 49.  The code bounds both at
63: `ValidateSpec` admits a 50-character id (which the repository's own test
`resources_test.go` requires it to reject), and `sanitizeUserID` keeps 63
characters of a 73-character subject (the test in src/unnamed/part_011
expects 49), and maps the test's digit-first 48-character subject to a
50-character result where that test expects 48. -/
theorem validateSpec_userID_bound_is_63_not_49 :
    validateSpec (fun _ => true) (specWithID (List.replicate 50 'a')) = none ∧
    (sanitizeUserID (List.replicate 73 'a')).length = 63 ∧
    (sanitizeUserID ('9' :: List.replicate 45 'a' ++ ['-', 'b'])).length = 50 := by
  set_option maxRecDepth 4000 in
  refine ⟨?_, ?_, ?_⟩ <;> decide

/-! ## Workspace object and naming (src/pkg/workspace/resources.go) -/

/-- The Workspace custom resource: metadata plus spec and status.  Owner
references and the runtime scheme are platform plumbing outside the scope of
the claims and are not modelled. -/
structure Workspace where
  name : List Char
  namespaceName : List Char
  spec : WorkspaceSpec
  status : WorkspaceStatus
  deletionTimestamp : Bool
  hasFinalizer : Bool
  deriving Repr, DecidableEq

def pvcName (userID : List Char) : List Char := userID ++ "-workspace-pvc".toList

def podName (userID : List Char) : List Char := userID ++ "-workspace-pod".toList

def serviceName (userID : List Char) : List Char := userID ++ "-workspace-svc".toList

def serviceAccountName (userID : List Char) : List Char := userID ++ "-workspace".toList

/-- The common labels stamped on every owned object. -/
def workspaceLabels (userID : List Char) : List (String × List Char) :=
  [("app", "workspace".toList), ("user", userID), ("managed-by", "devplane".toList)]

/-! ## Security builders (src/unnamed/part_014 and the security package in
src/pkg/security) -/

inductive NPProtocol where
  | tcp
  | udp
  deriving Repr, DecidableEq

/-- One `NetworkPolicyPort` (protocol plus numeric port). -/
structure NPPort where
  protocol : NPProtocol
  port : Int
  deriving Repr, DecidableEq

/-- One `NetworkPolicyPeer`. -/
inductive NPPeer where
  | namespaceSel (name : List Char)
  | podSel (appLabel : List Char)
  | ipBlock (cidr : String)
  deriving Repr, DecidableEq

structure EgressRule where
  ports : List NPPort
  toPeers : List NPPeer
  deriving Repr, DecidableEq

structure IngressRule where
  ports : List NPPort
  fromPeers : List NPPeer
  deriving Repr, DecidableEq

inductive PolicyType where
  | ingress
  | egress
  deriving Repr, DecidableEq

structure NetworkPolicy where
  name : List Char
  namespaceName : List Char
  labels : List (String × List Char)
  podSelector : List (String × List Char)
  policyTypes : List PolicyType
  ingress : List IngressRule
  egress : List EgressRule
  deriving Repr, DecidableEq

/-- `DefaultEgressPorts`. -/
def defaultEgressPorts : List Int := [22, 80, 443, 5000, 8000, 8080, 8081, 11434]

def netpolName (userID suffix : List Char) : List Char :=
  userID ++ "-workspace-".toList ++ suffix

/-- `workspacePodSelector`. -/
def workspacePodSelector (userID : List Char) : List (String × List Char) :=
  [("app", "workspace".toList), ("user", userID)]

/-- `dnsNamespace`. -/
def dnsNamespace : List Char := "kube-system".toList

/-- `BuildDenyAllNetworkPolicy`. -/
def buildDenyAllNetworkPolicy (ws : Workspace) : NetworkPolicy :=
  { name := netpolName ws.spec.user.id "deny-all".toList
    namespaceName := ws.namespaceName
    labels := workspaceLabels ws.spec.user.id
    podSelector := workspacePodSelector ws.spec.user.id
    policyTypes := [.ingress, .egress]
    ingress := []
    egress := [] }

/-- `BuildEgressNetworkPolicy` (src/unnamed/part_014, lines 119-182): always
allow DNS; allow the LLM namespaces when configured; allow external TCP on
the given ports, silently skipping ports outside `[1, 65535]`. -/
def buildEgressNetworkPolicy (ws : Workspace) (llmNamespaces : List (List Char))
    (egressPorts : List Int) : NetworkPolicy :=
  let dnsRule : EgressRule :=
    { ports := [⟨.udp, 53⟩, ⟨.tcp, 53⟩], toPeers := [.namespaceSel dnsNamespace] }
  let llmRules : List EgressRule :=
    if llmNamespaces.isEmpty then []
    else [{ ports := [], toPeers := llmNamespaces.map .namespaceSel }]
  let internetPorts : List NPPort :=
    (egressPorts.filter (fun p => 1 ≤ p && p ≤ 65535)).map (fun p => ⟨.tcp, p⟩)
  let internetRule : EgressRule :=
    { ports := internetPorts, toPeers := [.ipBlock "0.0.0.0/0"] }
  { name := netpolName ws.spec.user.id "egress".toList
    namespaceName := ws.namespaceName
    labels := workspaceLabels ws.spec.user.id
    podSelector := workspacePodSelector ws.spec.user.id
    policyTypes := [.egress]
    ingress := []
    egress := dnsRule :: llmRules ++ [internetRule] }

/-- `labelGatewayApp`. -/
def labelGatewayApp : List Char := "workspace-gateway".toList

/-- `BuildIngressFromGatewayNetworkPolicy`. -/
def buildIngressFromGatewayNetworkPolicy (ws : Workspace) : NetworkPolicy :=
  { name := netpolName ws.spec.user.id "ingress-gateway".toList
    namespaceName := ws.namespaceName
    labels := workspaceLabels ws.spec.user.id
    podSelector := workspacePodSelector ws.spec.user.id
    policyTypes := [.ingress]
    ingress := [{ ports := [⟨.tcp, 7681⟩], fromPeers := [.podSel labelGatewayApp] }]
    egress := [] }

/-- One RBAC `PolicyRule`. -/
structure PolicyRule where
  apiGroups : List String
  resources : List String
  verbs : List String
  deriving Repr, DecidableEq

structure Role where
  name : List Char
  namespaceName : List Char
  labels : List (String × List Char)
  rules : List PolicyRule
  deriving Repr, DecidableEq

/-- `BuildRole` (security package): read-only access to common workload
resources; secrets intentionally excluded. -/
def buildRole (ws : Workspace) : Role :=
  { name := serviceAccountName ws.spec.user.id
    namespaceName := ws.namespaceName
    labels := workspaceLabels ws.spec.user.id
    rules :=
      [ { apiGroups := [""]
          resources := ["pods", "services", "configmaps", "events", "endpoints"]
          verbs := ["get", "list", "watch"] }
      , { apiGroups := [""]
          resources := ["pods/log"]
          verbs := ["get", "list"] }
      , { apiGroups := ["apps"]
          resources := ["deployments", "replicasets", "statefulsets", "daemonsets"]
          verbs := ["get", "list", "watch"] }
      , { apiGroups := ["workspace.devplane.io"]
          resources := ["workspaces"]
          verbs := ["get"] } ] }

/-! ### C4: the external-egress rule -/

/-- The rules of an egress policy whose destination is the whole IPv4 range. -/
def externalEgressRules (np : NetworkPolicy) : List EgressRule :=
  np.egress.filter (fun r => r.toPeers == [.ipBlock "0.0.0.0/0"])

/-- The in-range filter of `BuildEgressNetworkPolicy`. -/
def inPortRange (p : Int) : Bool := 1 ≤ p && p ≤ 65535

theorem map_namespaceSel_ne_ipBlock (ns : List (List Char)) :
    (ns.map NPPeer.namespaceSel == [NPPeer.ipBlock "0.0.0.0/0"]) = false := by
  cases ns with
  | nil => rfl
  | cons a t =>
    cases t with
    | nil => simp
    | cons b t2 => simp

/-- The unique external-egress rule of a built egress policy. -/
theorem externalEgressRules_build (ws : Workspace) (ns : List (List Char))
    (ports : List Int) :
    externalEgressRules (buildEgressNetworkPolicy ws ns ports) =
      [{ ports := (ports.filter inPortRange).map (fun p => ⟨.tcp, p⟩)
         toPeers := [.ipBlock "0.0.0.0/0"] }] := by
  unfold externalEgressRules buildEgressNetworkPolicy inPortRange
  by_cases hns : ns.isEmpty
  · simp [hns]
  · simp [hns, List.filter_append, map_namespaceSel_ne_ipBlock]

/-- C4 (amended).  For every Workspace and resolved egress port list, the
external-egress rule (to 0.0.0.0/0) of the built egress policy exists and is
unique, and its ports are exactly the in-range (1..65535) entries of the
resolved list, in order and with multiplicity, all TCP; it is duplicate-free
whenever the resolved list is (the builder performs no deduplication); the
concrete list [0, 443, -1, 65536, 22] yields exactly ports 443 and 22. -/
theorem egress_external_rule_ports (ws : Workspace) (ns : List (List Char))
    (ports : List Int) :
    (∃ r, externalEgressRules (buildEgressNetworkPolicy ws ns ports) = [r] ∧
      r.ports = (ports.filter inPortRange).map (fun p => ⟨.tcp, p⟩) ∧
      (∀ q ∈ r.ports, q.protocol = .tcp ∧ 1 ≤ q.port ∧ q.port ≤ 65535) ∧
      (ports.Nodup → r.ports.Nodup)) ∧
    (externalEgressRules
        (buildEgressNetworkPolicy ws ns [0, 443, -1, 65536, 22])).map
        EgressRule.ports = [[⟨.tcp, 443⟩, ⟨.tcp, 22⟩]] := by
  constructor
  · refine ⟨_, externalEgressRules_build ws ns ports, rfl, ?_, ?_⟩
    · intro q hq
      simp only [List.mem_map, List.mem_filter, inPortRange, Bool.and_eq_true,
        decide_eq_true_eq] at hq
      obtain ⟨p, ⟨_, hp1, hp2⟩, rfl⟩ := hq
      exact ⟨rfl, hp1, hp2⟩
    · intro hnd
      exact List.Nodup.map (fun a b h => by simpa using h) (hnd.filter _)
  · rw [externalEgressRules_build]
    rfl

/-- C4 counterexample to the claim as stated: the resolved port list
[443, 443] is made only of in-range ports, yet the external-egress rule of
the built policy carries the duplicate — the rule is not duplicate-free for
every resolved port list. -/
theorem egress_external_rule_duplicates :
    ¬ (List.Nodup ((externalEgressRules
        (buildEgressNetworkPolicy
          { name := "alice".toList
            namespaceName := "dev".toList
            spec := specWithID "alice".toList
            status := { phase := .empty, podName := [], serviceEndpoint := [],
                        message := "", lastAccessed := none }
            deletionTimestamp := false
            hasFinalizer := true }
          ["ai-system".toList] [443, 443])).flatMap EgressRule.ports)) := by
  decide

/-- Witness for `egress_external_rule_ports` at a concrete workspace and
duplicate-free port list. -/
theorem egress_external_rule_ports_witness :
    ∃ r, externalEgressRules
        (buildEgressNetworkPolicy
          { name := "alice".toList
            namespaceName := "dev".toList
            spec := specWithID "alice".toList
            status := { phase := .empty, podName := [], serviceEndpoint := [],
                        message := "", lastAccessed := none }
            deletionTimestamp := false
            hasFinalizer := true }
          ["ai-system".toList] [0, 443, -1, 65536, 22]) = [r] ∧
      r.ports = ([0, 443, -1, 65536, 22].filter inPortRange).map
        (fun p => ⟨.tcp, p⟩) ∧
      (∀ q ∈ r.ports, q.protocol = .tcp ∧ 1 ≤ q.port ∧ q.port ≤ 65535) ∧
      (([0, 443, -1, 65536, 22] : List Int).Nodup → r.ports.Nodup) := by
  obtain ⟨h1, _⟩ := egress_external_rule_ports
    { name := "alice".toList
      namespaceName := "dev".toList
      spec := specWithID "alice".toList
      status := { phase := .empty, podName := [], serviceEndpoint := [],
                  message := "", lastAccessed := none }
      deletionTimestamp := false
      hasFinalizer := true }
    ["ai-system".toList] [0, 443, -1, 65536, 22]
  exact h1

/-! ### C5: the Role is read-only and never references secrets -/

/-- C5.  Every rule of the Role built for any Workspace grants only the read
verbs get/list/watch (in particular none of create, update, patch, delete,
deletecollection), never references the `secrets` resource, and touches only
the common workload resources and the Workspace kind. -/
theorem buildRole_read_only (ws : Workspace) :
    ∀ rule ∈ (buildRole ws).rules,
      (∀ v ∈ rule.verbs, v = "get" ∨ v = "list" ∨ v = "watch") ∧
      "secrets" ∉ rule.resources ∧
      (∀ r ∈ rule.resources,
        r ∈ ["pods", "services", "configmaps", "events", "endpoints",
             "pods/log", "deployments", "replicasets", "statefulsets",
             "daemonsets", "workspaces"]) := by
  intro rule hrule
  have : (buildRole ws).rules =
      [ { apiGroups := [""]
          resources := ["pods", "services", "configmaps", "events", "endpoints"]
          verbs := ["get", "list", "watch"] }
      , { apiGroups := [""]
          resources := ["pods/log"]
          verbs := ["get", "list"] }
      , { apiGroups := ["apps"]
          resources := ["deployments", "replicasets", "statefulsets", "daemonsets"]
          verbs := ["get", "list", "watch"] }
      , { apiGroups := ["workspace.devplane.io"]
          resources := ["workspaces"]
          verbs := ["get"] } ] := rfl
  rw [this] at hrule
  fin_cases hrule <;> refine ⟨?_, ?_, ?_⟩ <;> decide

/-- Witness for `buildRole_read_only`: the first rule of the Role built for
a concrete workspace grants only read verbs, avoids secrets, and touches
only the allowed resources. -/
theorem buildRole_read_only_witness :
    (∀ v ∈ (PolicyRule.mk [""]
        ["pods", "services", "configmaps", "events", "endpoints"]
        ["get", "list", "watch"]).verbs,
      v = "get" ∨ v = "list" ∨ v = "watch") ∧
    "secrets" ∉ (PolicyRule.mk [""]
        ["pods", "services", "configmaps", "events", "endpoints"]
        ["get", "list", "watch"]).resources ∧
    (∀ r ∈ (PolicyRule.mk [""]
        ["pods", "services", "configmaps", "events", "endpoints"]
        ["get", "list", "watch"]).resources,
      r ∈ ["pods", "services", "configmaps", "events", "endpoints",
           "pods/log", "deployments", "replicasets", "statefulsets",
           "daemonsets", "workspaces"]) :=
  buildRole_read_only
    { name := "ws1".toList, namespaceName := "dev".toList,
      spec := specWithID "alice".toList,
      status := { phase := .empty, podName := [], serviceEndpoint := [],
                  message := "", lastAccessed := none },
      deletionTimestamp := false, hasFinalizer := true }
    (PolicyRule.mk [""]
      ["pods", "services", "configmaps", "events", "endpoints"]
      ["get", "list", "watch"])
    (by decide)

/-! ## Token validator cache (src/unnamed/part_009, LRU version)

`hashToken` is hex-encoded SHA-256; it is modelled as the identity, which
captures its injectivity (collision-freeness) — the only property the cache
logic relies on.  The identity-provider round trip (`verifier.Verify`
followed by claims extraction) is the external oracle `verify`. -/

/-- `tokenCacheTTL` (5 minutes, in seconds). -/
def tokenCacheTTL : Nat := 300

/-- `tokenCacheMax`. -/
def tokenCacheMax : Nat := 10000

/-- Verified identity extracted from an OIDC token. -/
structure TokenClaims where
  sub : List Char
  email : List Char
  userID : List Char
  deriving Repr, DecidableEq

/-- `hashToken`, modelled as an injective key derivation. -/
def hashToken (raw : List Char) : List Char := raw

/-- One cache entry: token hash, claims, absolute expiry. -/
structure CachedEntry where
  key : List Char
  claims : TokenClaims
  expiry : Nat
  deriving Repr, DecidableEq

/-- Validator state: the LRU list, front = most recently used.  The capacity
is the `tokenCacheMax` constant, carried as a field so the capacity-3
scenario of the specification is expressible. -/
structure ValidatorState where
  capacity : Nat
  lru : List CachedEntry
  deriving Repr, DecidableEq

/-- The `for v.lru.Len() >= tokenCacheMax` eviction loop: drop the back
element until below capacity (or the list is empty).  Each pass removes one
element, so the list length bounds the number of iterations; the fuel makes
the recursion structural. -/
def evictLoopFuel (cap : Nat) : Nat → List CachedEntry → List CachedEntry
  | _, [] => []
  | 0, l => l
  | fuel + 1, l =>
    if cap ≤ l.length then evictLoopFuel cap fuel l.dropLast else l

def evictLoop (cap : Nat) (l : List CachedEntry) : List CachedEntry :=
  evictLoopFuel cap l.length l

/-- The miss path of `Validate`: provider round trip, claim extraction,
eviction at capacity, insertion at the front with a fresh TTL. -/
def validateMiss (verify : List Char → Option (List Char × List Char))
    (now : Nat) (st : ValidatorState) (rawToken key : List Char) :
    Except String (TokenClaims × ValidatorState × Bool) :=
  match verify rawToken with
  | none => .error "verify token"
  | some (sub, email) =>
    let claims : TokenClaims :=
      { sub := sub, email := email, userID := sanitizeUserID sub }
    let entry : CachedEntry :=
      { key := key, claims := claims, expiry := now + tokenCacheTTL }
    .ok (claims,
      { st with lru := entry :: evictLoop st.capacity st.lru }, true)

/-- `Validator.Validate` (src/unnamed/part_009, lines 108-160): look up the
hashed token; an unexpired hit moves to the front and returns the cached
claims without a round trip; an expired hit is evicted eagerly; a miss does
the round trip and inserts, evicting the least-recently-used entry at
capacity.  The returned Bool records whether a round trip happened. -/
def validateStep (verify : List Char → Option (List Char × List Char))
    (now : Nat) (st : ValidatorState) (rawToken : List Char) :
    Except String (TokenClaims × ValidatorState × Bool) :=
  let key := hashToken rawToken
  match st.lru.find? (fun e => e.key == key) with
  | some entry =>
    if now < entry.expiry then
      .ok (entry.claims,
        { st with lru := entry :: st.lru.eraseP (fun e => e.key == key) },
        false)
    else
      validateMiss verify now
        { st with lru := st.lru.eraseP (fun e => e.key == key) } rawToken key
  | none => validateMiss verify now st rawToken key

/-- Run `Validate` over a sequence of tokens, counting provider round trips.
A failed validation leaves the cache unchanged, as in the source. -/
def validateRun (verify : List Char → Option (List Char × List Char))
    (now : Nat) (st : ValidatorState) (tokens : List (List Char)) :
    ValidatorState × Nat :=
  tokens.foldl
    (fun acc tok =>
      match validateStep verify now acc.1 tok with
      | .ok (_, st2, rt) => (st2, acc.2 + if rt then 1 else 0)
      | .error _ => acc)
    (st, 0)

/-- The oracle used in concrete cache scenarios: every token verifies, with
subject and email equal to the token itself. -/
def echoVerify (t : List Char) : Option (List Char × List Char) := some (t, t)

theorem evictLoopFuel_of_lt {cap fuel : Nat} {l : List CachedEntry}
    (h : l.length < cap) : evictLoopFuel cap fuel l = l := by
  cases l with
  | nil => cases fuel <;> rfl
  | cons a t =>
    cases fuel with
    | zero => rfl
    | succ k =>
      show (if cap ≤ (a :: t).length then evictLoopFuel cap k (a :: t).dropLast
        else a :: t) = a :: t
      rw [if_neg (by omega)]

theorem evictLoop_at_capacity {cap : Nat} {l : List CachedEntry}
    (hlen : l.length = cap) (hpos : 0 < cap) :
    evictLoop cap l = l.dropLast := by
  unfold evictLoop
  cases l with
  | nil => simp at hlen; omega
  | cons a t =>
    rw [hlen]
    cases cap with
    | zero => omega
    | succ k =>
      show (if k + 1 ≤ (a :: t).length then
        evictLoopFuel (k + 1) k (a :: t).dropLast else a :: t) = (a :: t).dropLast
      rw [if_pos (by omega)]
      exact evictLoopFuel_of_lt (by simp only [List.length_dropLast]; omega)

/-- Moving the entry found by `find?` to the front is a permutation. -/
theorem perm_cons_eraseP_of_find? {p : CachedEntry → Bool} :
    ∀ {l : List CachedEntry} {e : CachedEntry}, l.find? p = some e →
      (e :: l.eraseP p).Perm l := by
  intro l
  induction l with
  | nil => intro e h; simp at h
  | cons a t ih =>
    intro e h
    by_cases hp : p a = true
    · rw [List.find?_cons_of_pos _ hp] at h
      rw [List.eraseP_cons_of_pos hp]
      obtain rfl : a = e := by simpa using h
      exact List.Perm.refl _
    · rw [List.find?_cons_of_neg _ hp] at h
      rw [List.eraseP_cons_of_neg hp]
      exact (List.Perm.swap a e _).trans ((ih h).cons a)

/-- C3.  The token cache is a bounded LRU with per-entry TTL: (1) a lookup
hit on an unexpired entry returns the cached claims with no provider round
trip and moves the entry to the front, leaving the cache contents a
permutation of what they were; (2) a miss at capacity performs the round
trip and inserts at the front after evicting the least-recently-used (back)
entry; (3) with capacity 3, validating tokens a, b, c, a, d in order makes
exactly 4 provider round trips and leaves exactly the keys d, a, c (most to
least recent), i.e. the set containing a, c and d. -/
theorem validate_lru_cache (verify : List Char → Option (List Char × List Char))
    (now : Nat) (st : ValidatorState) (tok : List Char) (e : CachedEntry)
    (hfind : st.lru.find? (fun x => x.key == hashToken tok) = some e)
    (hexp : now < e.expiry) :
    (validateStep verify now st tok =
      .ok (e.claims,
        { st with lru := e :: st.lru.eraseP (fun x => x.key == hashToken tok) },
        false) ∧
      (e :: st.lru.eraseP (fun x => x.key == hashToken tok)).Perm st.lru) ∧
    (∀ (st2 : ValidatorState) (tok2 sub email : List Char),
      st2.lru.find? (fun x => x.key == hashToken tok2) = none →
      st2.lru.length = st2.capacity → 0 < st2.capacity →
      verify tok2 = some (sub, email) →
      validateStep verify now st2 tok2 =
        .ok ({ sub := sub, email := email, userID := sanitizeUserID sub },
          { st2 with lru :=
            { key := hashToken tok2,
              claims := { sub := sub, email := email,
                          userID := sanitizeUserID sub },
              expiry := now + tokenCacheTTL } :: st2.lru.dropLast },
          true)) ∧
    ((validateRun echoVerify 0 { capacity := 3, lru := [] }
        ["ta".toList, "tb".toList, "tc".toList, "ta".toList, "td".toList]).2
        = 4 ∧
      (validateRun echoVerify 0 { capacity := 3, lru := [] }
        ["ta".toList, "tb".toList, "tc".toList, "ta".toList, "td".toList]).1.lru.map
        CachedEntry.key = ["td".toList, "ta".toList, "tc".toList]) := by
  refine ⟨⟨?_, ?_⟩, ?_, by decide, by decide⟩
  · simp [validateStep, hfind, hexp]
  · exact perm_cons_eraseP_of_find? hfind
  · intro st2 tok2 sub email hnone hlen hpos hver
    simp only [validateStep, hnone, validateMiss, hver,
      evictLoop_at_capacity hlen hpos]

/-- Witness for `validate_lru_cache`: a concrete one-entry cache hit and a
concrete miss at capacity. -/
theorem validate_lru_cache_witness :
    (validateStep echoVerify 10
        { capacity := 3,
          lru := [{ key := "ta".toList,
                    claims := { sub := "ta".toList, email := "ta".toList,
                                userID := "ta".toList },
                    expiry := 300 }] }
        "ta".toList =
      .ok ({ sub := "ta".toList, email := "ta".toList, userID := "ta".toList },
        { capacity := 3,
          lru := [{ key := "ta".toList,
                    claims := { sub := "ta".toList, email := "ta".toList,
                                userID := "ta".toList },
                    expiry := 300 }] },
        false)) ∧
    (validateStep echoVerify 10
        { capacity := 1,
          lru := [{ key := "tb".toList,
                    claims := { sub := "tb".toList, email := "tb".toList,
                                userID := "tb".toList },
                    expiry := 300 }] }
        "tc".toList =
      .ok ({ sub := "tc".toList, email := "tc".toList, userID := "tc".toList },
        { capacity := 1,
          lru := [{ key := "tc".toList,
                    claims := { sub := "tc".toList, email := "tc".toList,
                                userID := "tc".toList },
                    expiry := 310 }] },
        true)) := by
  have h1 := validate_lru_cache echoVerify 10
    { capacity := 3,
      lru := [{ key := "ta".toList,
                claims := { sub := "ta".toList, email := "ta".toList,
                            userID := "ta".toList },
                expiry := 300 }] }
    "ta".toList
    { key := "ta".toList,
      claims := { sub := "ta".toList, email := "ta".toList,
                  userID := "ta".toList },
      expiry := 300 }
    (by decide) (by decide)
  constructor
  · have := h1.1.1
    rw [this]
    rfl
  · have h2 := h1.2.1
      { capacity := 1,
        lru := [{ key := "tb".toList,
                  claims := { sub := "tb".toList, email := "tb".toList,
                              userID := "tb".toList },
                  expiry := 300 }] }
      "tc".toList "tc".toList "tc".toList
      (by decide) (by decide) (by decide) (by decide)
    rw [h2]
    rfl

/-! ## Lifecycle manager blocking wait (src/pkg/gateway/lifecycle.go,
waitForRunning, lines 155-189)

Real time is idealised: each loop iteration fetches the Workspace afresh
(`fetch i` is the result of the i-th Get) and then waits one poll interval,
so the clock advances by `workspaceReadyPoll` per iteration.  Status patches
issued on a `Stopped` observation are recorded by the fetch index at which
they happened; the patch clears phase, podName and message. -/

/-- `workspaceReadyTimeout` (seconds). -/
def workspaceReadyTimeout : Nat := 60

/-- `workspaceReadyPoll` (seconds). -/
def workspaceReadyPoll : Nat := 2

inductive WaitError where
  | provisioningFailed (message : String)
  | notReady
  deriving Repr, DecidableEq

/-- Result of the wait: the returned Workspace status or an error, plus the
statuses written by the clearing patches issued on `Stopped` observations. -/
structure WaitResult where
  result : Except WaitError WorkspaceStatus
  patches : List WorkspaceStatus
  deriving Repr

/-- The status written by the self-service recovery patch: phase, message
and podName cleared, everything else untouched. -/
def clearStoppedPatch (ws : WorkspaceStatus) : WorkspaceStatus :=
  { ws with phase := .empty, message := "", podName := [] }

/-- The polling loop of `waitForRunning`: while `now` is before the
deadline, fetch the Workspace afresh; `Running` returns it, `Failed` returns
an error carrying the status message, `Stopped` issues the clearing patch
and keeps polling, anything else just waits one interval. -/
def waitForRunningAux (fetch : Nat → WorkspaceStatus) (i now deadline : Nat)
    (acc : List WorkspaceStatus) : WaitResult :=
  if now < deadline then
    let ws := fetch i
    match ws.phase with
    | .running => { result := .ok ws, patches := acc }
    | .failed =>
      { result := .error (.provisioningFailed ws.message), patches := acc }
    | .stopped =>
      waitForRunningAux fetch (i + 1) (now + workspaceReadyPoll) deadline
        (acc ++ [clearStoppedPatch ws])
    | _ =>
      waitForRunningAux fetch (i + 1) (now + workspaceReadyPoll) deadline acc
  else { result := .error .notReady, patches := acc }
termination_by deadline - now
decreasing_by
  all_goals simp only [workspaceReadyPoll]; omega

/-- `LifecycleManager.waitForRunning`: poll from `now0` with deadline
`now0 + workspaceReadyTimeout`. -/
def waitForRunning (fetch : Nat → WorkspaceStatus) (now0 : Nat) : WaitResult :=
  waitForRunningAux fetch 0 now0 (now0 + workspaceReadyTimeout) []

/-- When no fetch ever observes `Running` or `Failed`, the loop runs out the
deadline and reports not-ready. -/
theorem waitForRunningAux_notReady (fetch : Nat → WorkspaceStatus)
    (h : ∀ j, (fetch j).phase ≠ .running ∧ (fetch j).phase ≠ .failed)
    (deadline : Nat) :
    ∀ (k i now : Nat) (acc : List WorkspaceStatus), deadline - now = k →
      ∃ acc2, waitForRunningAux fetch i now deadline acc =
        { result := .error .notReady, patches := acc2 } := by
  intro k
  induction k using Nat.strong_induction_on with
  | _ k ih =>
    intro i now acc hk
    rw [waitForRunningAux]
    by_cases hlt : now < deadline
    · rw [if_pos hlt]
      have hd : deadline - (now + workspaceReadyPoll) < k := by
        simp only [workspaceReadyPoll]
        omega
      cases hph : (fetch i).phase with
      | running => exact absurd hph (h i).1
      | failed => exact absurd hph (h i).2
      | stopped =>
        simp only [hph]
        exact ih _ hd (i + 1) (now + workspaceReadyPoll)
          (acc ++ [clearStoppedPatch (fetch i)]) rfl
      | empty =>
        simp only [hph]
        exact ih _ hd (i + 1) (now + workspaceReadyPoll) acc rfl
      | pending =>
        simp only [hph]
        exact ih _ hd (i + 1) (now + workspaceReadyPoll) acc rfl
      | creating =>
        simp only [hph]
        exact ih _ hd (i + 1) (now + workspaceReadyPoll) acc rfl
    · rw [if_neg hlt]
      exact ⟨acc, rfl⟩

/-- C6.  The blocking wait uses deadline 60 s and interval 2 s, fetching the
Workspace afresh on each iteration; observing `Running` returns the fetched
workspace, `Failed` returns an error carrying the status message, `Stopped`
issues a status patch clearing phase/podName/message and continues polling,
and when no fetch ever observes `Running` or `Failed` the deadline expires
and a not-ready error is returned instead of a workspace. -/
theorem waitForRunning_behavior :
    (workspaceReadyTimeout = 60 ∧ workspaceReadyPoll = 2) ∧
    (∀ (fetch : Nat → WorkspaceStatus) (i now deadline : Nat)
        (acc : List WorkspaceStatus), now < deadline →
      ((fetch i).phase = .running →
        waitForRunningAux fetch i now deadline acc =
          { result := .ok (fetch i), patches := acc }) ∧
      ((fetch i).phase = .failed →
        waitForRunningAux fetch i now deadline acc =
          { result := .error (.provisioningFailed (fetch i).message),
            patches := acc }) ∧
      ((fetch i).phase = .stopped →
        waitForRunningAux fetch i now deadline acc =
          waitForRunningAux fetch (i + 1) (now + workspaceReadyPoll) deadline
            (acc ++ [clearStoppedPatch (fetch i)]))) ∧
    (∀ (fetch : Nat → WorkspaceStatus) (now0 : Nat),
      (∀ j, (fetch j).phase ≠ .running ∧ (fetch j).phase ≠ .failed) →
      ∃ acc2, waitForRunning fetch now0 =
        { result := .error .notReady, patches := acc2 }) := by
  refine ⟨⟨rfl, rfl⟩, ?_, ?_⟩
  · intro fetch i now deadline acc hlt
    refine ⟨?_, ?_, ?_⟩ <;> intro hph <;>
      · rw [waitForRunningAux, if_pos hlt]
        simp only [hph]
  · intro fetch now0 h
    exact waitForRunningAux_notReady fetch h (now0 + workspaceReadyTimeout)
      (now0 + workspaceReadyTimeout - now0) 0 now0 [] rfl

/-- A concrete status with the given phase, used by the wait witnesses. -/
def statusWithPhase (p : WorkspacePhase) : WorkspaceStatus :=
  { phase := p, podName := "alice-workspace-pod".toList,
    serviceEndpoint := "alice-workspace-svc.dev.svc.cluster.local".toList,
    message := "", lastAccessed := none }

/-- Witness for `waitForRunning_behavior`: a first fetch observing `Running`
returns it, and a workspace that stays `Creating` forever times out. -/
theorem waitForRunning_behavior_witness :
    (waitForRunningAux (fun _ => statusWithPhase .running) 0 0 60 [] =
      { result := .ok (statusWithPhase .running), patches := [] }) ∧
    (∃ acc2, waitForRunning (fun _ => statusWithPhase .creating) 0 =
      { result := .error .notReady, patches := acc2 }) := by
  constructor
  · exact ((waitForRunning_behavior.2.1 (fun _ => statusWithPhase .running)
      0 0 60 [] (by omega)).1) rfl
  · exact waitForRunning_behavior.2.2 (fun _ => statusWithPhase .creating) 0
      (fun j => by exact ⟨by simp [statusWithPhase], by simp [statusWithPhase]⟩)

/-! ## WebSocket proxy (src/pkg/gateway/proxy.go, ServeWS, lines 40-67)

The two relay goroutines each push their first read/write error into the
buffered error channel; `ServeWS` receives one of them.  Which relayer loses
the race is a scheduling fact outside a sequential embedding, so the value
received from the channel is the `firstRelayErr` parameter; the claim is
quantified over it.  Connections carry no data the return path inspects, so
they are modelled as opaque handles. -/

/-- An established WebSocket connection handle. -/
structure WSConn where
  id : Nat
  deriving Repr, DecidableEq

/-- `Proxy.ServeWS`: upgrade the client, dial the backend, relay until the
first error, log it, and return.  Only the upgrade and the dial can make the
call itself fail. -/
def serveWS (upgrade : Except String WSConn) (dial : Except String WSConn)
    (firstRelayErr : String) : Except String Unit :=
  match upgrade with
  | .error e => .error ("upgrade client connection: " ++ e)
  | .ok _ =>
    match dial with
    | .error e => .error ("dial backend: " ++ e)
    | .ok _ =>
      -- err = <-errc is logged as the close reason; the session ends here.
      let _closeReason := firstRelayErr
      .ok ()

/-- C10.  Whenever the client upgrade and the backend dial both succeed,
`ServeWS` returns nil: the first relay error only ends the session and is
logged, and is never returned to the caller, whatever it is. -/
theorem serveWS_ok_after_handshake (upgrade dial : Except String WSConn)
    (cl be : WSConn) (hupgrade : upgrade = .ok cl) (hdial : dial = .ok be)
    (firstRelayErr : String) :
    serveWS upgrade dial firstRelayErr = .ok () := by
  subst hupgrade hdial
  rfl

/-- Witness for `serveWS_ok_after_handshake` at concrete connections and a
concrete relay error. -/
theorem serveWS_ok_after_handshake_witness :
    serveWS (.ok ⟨1⟩) (.ok ⟨2⟩) "websocket: close 1006 (abnormal closure)" =
      .ok () :=
  serveWS_ok_after_handshake (.ok ⟨1⟩) (.ok ⟨2⟩) ⟨1⟩ ⟨2⟩ rfl rfl
    "websocket: close 1006 (abnormal closure)"

/-! ## Reconciler (src/unnamed/part_003)

One reconcile pass over a snapshot of the cluster.  Every platform API write
the pass issues is recorded in order.  API calls never fail in the model (the
claims under study concern the success paths); `resource.ParseQuantity`
remains the external `parseQty` oracle threaded through `validateSpec`. -/

inductive PVCPhase where
  | pending
  | bound
  | lost
  deriving Repr, DecidableEq

structure PVCObj where
  storage : List Char
  storageClass : List Char
  phase : PVCPhase
  deriving Repr, DecidableEq

/-- Kubernetes pod phase; `unset` is the empty-string phase of a pod the
scheduler has not touched yet. -/
inductive PodPhaseK where
  | unset
  | pending
  | running
  | succeeded
  | failed
  deriving Repr, DecidableEq

/-- The workspace pod, with the observed fields the reconciler reads: the
single container's image, the pod phase, the Ready condition, the status
reason, the container's waiting state, and the deletion timestamp. -/
structure PodObj where
  name : List Char
  image : List Char
  phase : PodPhaseK
  ready : Bool
  reason : String
  waitingReason : Option String
  waitingMessage : String
  deletionTimestamp : Bool
  deriving Repr, DecidableEq

structure SvcObj where
  labels : List (String × List Char)
  selector : List (String × List Char)
  ports : List (String × Int)
  deriving Repr, DecidableEq

structure RoleBinding where
  labels : List (String × List Char)
  subjectName : List Char
  roleName : List Char
  deriving Repr, DecidableEq

/-- The cluster-side objects owned by one Workspace, `none` when absent. -/
structure Cluster where
  ws : Workspace
  sa : Option (List (String × List Char))
  role : Option Role
  rb : Option RoleBinding
  npDenyAll : Option NetworkPolicy
  npEgress : Option NetworkPolicy
  npIngressGw : Option NetworkPolicy
  pvc : Option PVCObj
  pod : Option PodObj
  svc : Option SvcObj
  deriving Repr, DecidableEq

/-- `WorkspaceReconciler` configuration (operator flags). -/
structure OperatorConfig where
  workspaceImage : List Char
  llmNamespaces : List (List Char)
  egressPorts : List Int
  idleTimeout : Nat
  deriving Repr, DecidableEq

inductive ObjKind where
  | sa
  | role
  | rb
  | npDenyAll
  | npEgress
  | npIngressGw
  | pvc
  | pod
  | svc
  deriving Repr, DecidableEq

/-- One write against the platform API. -/
inductive APIWrite where
  | updateWorkspace
  | create (k : ObjKind)
  | update (k : ObjKind)
  | delete (k : ObjKind)
  | statusUpdate (st : WorkspaceStatus)
  deriving Repr, DecidableEq

inductive Requeue where
  | no
  | requeue
  | after (seconds : Nat)
  deriving Repr, DecidableEq

structure ReconcileResult where
  cluster : Cluster
  writes : List APIWrite
  requeue : Requeue
  deriving Repr, DecidableEq

/-- `controllerutil.CreateOrUpdate`: create when absent, update when the
stored content differs from the desired content, no write otherwise. -/
def ensureObj {α : Type} [DecidableEq α] (k : ObjKind) (stored : Option α)
    (desired : α) : α × List APIWrite :=
  match stored with
  | none => (desired, [.create k])
  | some v => if v = desired then (v, []) else (desired, [.update k])

/-- `updateStatus` (src/unnamed/part_003, lines 435-446): overwrite phase,
podName, serviceEndpoint and message (the override wins when nonempty);
`lastAccessed` is untouched. -/
def updateStatusFn (st : WorkspaceStatus) (phase : WorkspacePhase)
    (pod endpoint : List Char) (message messageOverride : String) :
    WorkspaceStatus :=
  let msg := if messageOverride ≠ "" then messageOverride else message
  { st with phase := phase, podName := pod, serviceEndpoint := endpoint,
            message := msg }

/-- `fmt.Sprintf("%s.%s.svc.cluster.local", svcName, namespace)`. -/
def serviceEndpointOf (userID ns : List Char) : List Char :=
  serviceName userID ++ '.' :: ns ++ ".svc.cluster.local".toList

/-- Desired RoleBinding content. -/
def desiredRoleBinding (ws : Workspace) : RoleBinding :=
  { labels := workspaceLabels ws.spec.user.id
    subjectName := serviceAccountName ws.spec.user.id
    roleName := serviceAccountName ws.spec.user.id }

/-- Desired headless service content. -/
def desiredSvc (ws : Workspace) : SvcObj :=
  { labels := workspaceLabels ws.spec.user.id
    selector := workspaceLabels ws.spec.user.id
    ports := [("ttyd", 7681)] }

/-- `BuildPVC` as observed right after creation. -/
def buildPVC (ws : Workspace) : PVCObj :=
  { storage := ws.spec.resources.storage
    storageClass := ws.spec.persistence.storageClass
    phase := .pending }

/-- `BuildPod` as observed right after creation. -/
def buildPodObj (ws : Workspace) (image : List Char) : PodObj :=
  { name := podName ws.spec.user.id, image := image, phase := .unset,
    ready := false, reason := "", waitingReason := none, waitingMessage := "",
    deletionTimestamp := false }

/-- Egress namespace resolution: spec, then operator config, then
`["ai-system"]`. -/
def resolveLLMNamespaces (cfg : OperatorConfig) (ws : Workspace) :
    List (List Char) :=
  if ws.spec.aiConfig.egressNamespaces ≠ [] then ws.spec.aiConfig.egressNamespaces
  else if cfg.llmNamespaces ≠ [] then cfg.llmNamespaces
  else ["ai-system".toList]

/-- Egress port resolution: spec, then operator config, then the built-in
default set. -/
def resolveEgressPorts (cfg : OperatorConfig) (ws : Workspace) : List Int :=
  if ws.spec.aiConfig.egressPorts ≠ [] then ws.spec.aiConfig.egressPorts
  else if cfg.egressPorts ≠ [] then cfg.egressPorts
  else defaultEgressPorts

/-- The desired image: operator config, defaulting to `workspace:latest`. -/
def resolvedImage (cfg : OperatorConfig) : List Char :=
  if cfg.workspaceImage = [] then "workspace:latest".toList else cfg.workspaceImage

/-- The container waiting reasons treated as terminal failures. -/
def badWaitingReasons : List String :=
  ["CrashLoopBackOff", "ImagePullBackOff", "ErrImagePull", "InvalidImageName"]

/-- `!ws.Status.LastAccessed.IsZero() && time.Since(lastAccessed) > idleTimeout`:
the zero time (`none`) never counts as expired. -/
def idleExpired (idleTimeout now : Nat) : Option Nat → Bool
  | some t => decide (idleTimeout < now - t)
  | none => false

def podPhaseMessage : PodPhaseK → String
  | .unset => "Pod starting"
  | .pending => "Pod phase: Pending"
  | .running => "Pod phase: Running"
  | .succeeded => "Pod phase: Succeeded"
  | .failed => "Pod phase: Failed"

/-- `WorkspaceReconciler.Reconcile` (src/unnamed/part_003, lines 54-275):
deletion branch, spec validation, finalizer registration, Stopped
short-circuit, RBAC and network-policy convergence, PVC create-once with the
Lost terminal check, pod create/image-roll, headless-service convergence,
idle eviction, and status projection from the pod state. -/
def reconcile (parseQty : List Char → Bool) (cfg : OperatorConfig) (now : Nat)
    (cl : Cluster) : ReconcileResult :=
  let ws := cl.ws
  if ws.deletionTimestamp then
    { cluster := { cl with ws := { ws with hasFinalizer := false } }
      writes := [.updateWorkspace], requeue := .no }
  else
    match validateSpec parseQty ws.spec with
    | some msg =>
      let st2 := updateStatusFn ws.status .failed [] [] "" msg
      { cluster := { cl with ws := { ws with status := st2 } }
        writes := [.statusUpdate st2], requeue := .no }
    | none =>
      if !ws.hasFinalizer then
        { cluster := { cl with ws := { ws with hasFinalizer := true } }
          writes := [.updateWorkspace], requeue := .requeue }
      else if ws.status.phase = .stopped then
        { cluster := cl, writes := [], requeue := .no }
      else
        let eSa := ensureObj .sa cl.sa (workspaceLabels ws.spec.user.id)
        let eRole := ensureObj .role cl.role (buildRole ws)
        let eRb := ensureObj .rb cl.rb (desiredRoleBinding ws)
        let eDeny := ensureObj .npDenyAll cl.npDenyAll (buildDenyAllNetworkPolicy ws)
        let eEg := ensureObj .npEgress cl.npEgress
          (buildEgressNetworkPolicy ws (resolveLLMNamespaces cfg ws)
            (resolveEgressPorts cfg ws))
        let eIng := ensureObj .npIngressGw cl.npIngressGw
          (buildIngressFromGatewayNetworkPolicy ws)
        let wPre := eSa.2 ++ eRole.2 ++ eRb.2 ++ eDeny.2 ++ eEg.2 ++ eIng.2
        let clPre := { cl with sa := some eSa.1, role := some eRole.1,
                               rb := some eRb.1, npDenyAll := some eDeny.1,
                               npEgress := some eEg.1, npIngressGw := some eIng.1 }
        match cl.pvc with
        | none =>
          { cluster := { clPre with pvc := some (buildPVC ws) }
            writes := wPre ++ [.create .pvc], requeue := .after 2 }
        | some pvc =>
          if pvc.phase = .lost then
            let st2 := updateStatusFn ws.status .failed [] [] ""
              "PVC lost — manual intervention required"
            { cluster := { clPre with ws := { ws with status := st2 } }
              writes := wPre ++ [.statusUpdate st2], requeue := .no }
          else
            let image := resolvedImage cfg
            match cl.pod with
            | none =>
              { cluster := { clPre with pod := some (buildPodObj ws image) }
                writes := wPre ++ [.create .pod], requeue := .after 2 }
            | some pod =>
              if pod.image ≠ image ∧ ¬pod.deletionTimestamp then
                { cluster := { clPre with pod := none }
                  writes := wPre ++ [.delete .pod], requeue := .after 2 }
              else
                let eSvc := ensureObj .svc cl.svc (desiredSvc ws)
                let w3 := wPre ++ eSvc.2
                let cl3 := { clPre with svc := some eSvc.1 }
                let endpoint := serviceEndpointOf ws.spec.user.id ws.namespaceName
                if pod.phase = .running ∧ pod.ready ∧ 0 < cfg.idleTimeout ∧
                    idleExpired cfg.idleTimeout now ws.status.lastAccessed then
                  let st2 := updateStatusFn ws.status .stopped [] []
                    "Workspace stopped due to inactivity" ""
                  let cl4 := { cl3 with pod := none, ws := { ws with status := st2 } }
                  { cluster := cl4
                    writes := w3 ++ [.delete .pod, .statusUpdate st2]
                    requeue := .no }
                else if pod.phase = .running ∧ pod.ready then
                  let st2 := updateStatusFn ws.status .running
                    (podName ws.spec.user.id) endpoint "" ""
                  { cluster := { cl3 with ws := { ws with status := st2 } }
                    writes := w3 ++ [.statusUpdate st2]
                    requeue := if 0 < cfg.idleTimeout then
                      .after (cfg.idleTimeout / 4) else .no }
                else if pod.phase = .failed then
                  let st2 := updateStatusFn ws.status .failed
                    (podName ws.spec.user.id) [] ""
                    ("Pod failed: " ++ pod.reason)
                  { cluster := { cl3 with ws := { ws with status := st2 } }
                    writes := w3 ++ [.statusUpdate st2], requeue := .no }
                else
                  match pod.waitingReason with
                  | some r =>
                    if r ∈ badWaitingReasons then
                      let st2 := updateStatusFn ws.status .failed
                        (podName ws.spec.user.id) [] ""
                        ("Pod stuck: " ++ r ++ " — " ++ pod.waitingMessage)
                      { cluster := { cl3 with ws := { ws with status := st2 } }
                        writes := w3 ++ [.statusUpdate st2], requeue := .no }
                    else
                      let st2 := updateStatusFn ws.status .creating
                        (podName ws.spec.user.id) endpoint
                        (podPhaseMessage pod.phase) ""
                      { cluster := { cl3 with ws := { ws with status := st2 } }
                        writes := w3 ++ [.statusUpdate st2]
                        requeue := .after 5 }
                  | none =>
                    let st2 := updateStatusFn ws.status .creating
                      (podName ws.spec.user.id) endpoint
                      (podPhaseMessage pod.phase) ""
                    { cluster := { cl3 with ws := { ws with status := st2 } }
                      writes := w3 ++ [.statusUpdate st2]
                      requeue := .after 5 }

/-! ### Reconciler lemmas -/

theorem ensureObj_fst {α : Type} [DecidableEq α] (k : ObjKind)
    (stored : Option α) (desired : α) : (ensureObj k stored desired).1 = desired := by
  unfold ensureObj
  cases stored with
  | none => rfl
  | some v =>
    by_cases h : v = desired
    · simp [h]
    · simp [h]

theorem ensureObj_same {α : Type} [DecidableEq α] (k : ObjKind) (d : α) :
    ensureObj k (some d) d = (d, []) := by
  simp [ensureObj]

theorem mem_ensureObj_writes {α : Type} [DecidableEq α] {k : ObjKind}
    {stored : Option α} {desired : α} {w : APIWrite}
    (h : w ∈ (ensureObj k stored desired).2) :
    w = .create k ∨ w = .update k := by
  unfold ensureObj at h
  cases stored with
  | none => simp at h; exact Or.inl h
  | some v =>
    by_cases hv : v = desired
    · simp [hv] at h
    · simp [hv] at h; exact Or.inr h

/-- The status written by the Running projection. -/
def runningStatusOf (cl : Cluster) : WorkspaceStatus :=
  updateStatusFn cl.ws.status .running (podName cl.ws.spec.user.id)
    (serviceEndpointOf cl.ws.spec.user.id cl.ws.namespaceName) "" ""

/-- The status written by idle eviction. -/
def stoppedStatusOf (cl : Cluster) : WorkspaceStatus :=
  updateStatusFn cl.ws.status .stopped [] []
    "Workspace stopped due to inactivity" ""

/-- The cluster after a pass that reaches the Running projection: every
ensured object converged to its desired content and the status projected. -/
def convergedCluster (cfg : OperatorConfig) (cl : Cluster) : Cluster :=
  { cl with
    sa := some (workspaceLabels cl.ws.spec.user.id)
    role := some (buildRole cl.ws)
    rb := some (desiredRoleBinding cl.ws)
    npDenyAll := some (buildDenyAllNetworkPolicy cl.ws)
    npEgress := some (buildEgressNetworkPolicy cl.ws
      (resolveLLMNamespaces cfg cl.ws) (resolveEgressPorts cfg cl.ws))
    npIngressGw := some (buildIngressFromGatewayNetworkPolicy cl.ws)
    svc := some (desiredSvc cl.ws)
    ws := { cl.ws with status := runningStatusOf cl } }

/-- The writes of the six RBAC/network-policy ensure steps plus the service
ensure step of one pass. -/
def ensureWrites (cfg : OperatorConfig) (cl : Cluster) : List APIWrite :=
  (ensureObj .sa cl.sa (workspaceLabels cl.ws.spec.user.id)).2 ++
  (ensureObj .role cl.role (buildRole cl.ws)).2 ++
  (ensureObj .rb cl.rb (desiredRoleBinding cl.ws)).2 ++
  (ensureObj .npDenyAll cl.npDenyAll (buildDenyAllNetworkPolicy cl.ws)).2 ++
  (ensureObj .npEgress cl.npEgress (buildEgressNetworkPolicy cl.ws
    (resolveLLMNamespaces cfg cl.ws) (resolveEgressPorts cfg cl.ws))).2 ++
  (ensureObj .npIngressGw cl.npIngressGw
    (buildIngressFromGatewayNetworkPolicy cl.ws)).2 ++
  (ensureObj .svc cl.svc (desiredSvc cl.ws)).2

/-- One reconcile pass on a healthy running workspace: all ensure steps
converge the stored objects, the idle branch does not fire, and the pass
ends in the Running status projection. -/
theorem reconcile_running_pass (parseQty : List Char → Bool)
    (cfg : OperatorConfig) (now : Nat) (cl : Cluster) (pvc : PVCObj)
    (pod : PodObj)
    (hdel : cl.ws.deletionTimestamp = false)
    (hval : validateSpec parseQty cl.ws.spec = none)
    (hfin : cl.ws.hasFinalizer = true)
    (hphase : cl.ws.status.phase ≠ .stopped)
    (hpvc : cl.pvc = some pvc) (hlost : pvc.phase ≠ .lost)
    (hpod : cl.pod = some pod) (himg : pod.image = resolvedImage cfg)
    (hrun : pod.phase = .running) (hready : pod.ready = true)
    (hidle : idleExpired cfg.idleTimeout now cl.ws.status.lastAccessed = false) :
    reconcile parseQty cfg now cl =
      { cluster := convergedCluster cfg cl
        writes := ensureWrites cfg cl ++ [.statusUpdate (runningStatusOf cl)]
        requeue := if 0 < cfg.idleTimeout then .after (cfg.idleTimeout / 4)
          else .no } := by
  simp only [reconcile, hdel, hval, hfin, hphase, hpvc, hlost, hpod, himg,
    hrun, hready, hidle, Bool.not_true, Bool.false_eq_true, if_false, ne_eq,
    not_false_iff, if_true, and_true, true_and, and_false, false_and,
    not_true_eq_false, not_false_eq_true, ite_false, ite_true]
  simp only [convergedCluster, ensureWrites, runningStatusOf, ensureObj_fst]
  simp [hdel, hfin, hpvc, hpod, List.append_assoc]

/-! ### C2: the second pass on an unchanged workspace -/

/-- C2 (amended).  Reconciling twice in succession an unchanged healthy
Workspace (valid spec, finalizer present, claim bound and not lost, pod
present with the desired image, running and ready, idle eviction not due)
issues no create, update or delete on the second pass — every
create-or-update is a no-op — but it does issue exactly one write: an
unconditional status update that rewrites the already-stored status
unchanged. -/
theorem reconcile_second_pass_single_status_write
    (parseQty : List Char → Bool) (cfg : OperatorConfig) (now : Nat)
    (cl : Cluster) (pvc : PVCObj) (pod : PodObj)
    (hdel : cl.ws.deletionTimestamp = false)
    (hval : validateSpec parseQty cl.ws.spec = none)
    (hfin : cl.ws.hasFinalizer = true)
    (hphase : cl.ws.status.phase ≠ .stopped)
    (hpvc : cl.pvc = some pvc) (hlost : pvc.phase ≠ .lost)
    (hpod : cl.pod = some pod) (himg : pod.image = resolvedImage cfg)
    (hrun : pod.phase = .running) (hready : pod.ready = true)
    (hidle : idleExpired cfg.idleTimeout now cl.ws.status.lastAccessed = false) :
    (reconcile parseQty cfg now (reconcile parseQty cfg now cl).cluster).writes =
      [.statusUpdate ((reconcile parseQty cfg now cl).cluster.ws.status)] ∧
    (reconcile parseQty cfg now (reconcile parseQty cfg now cl).cluster).cluster =
      (reconcile parseQty cfg now cl).cluster ∧
    (∀ w ∈ (reconcile parseQty cfg now
        (reconcile parseQty cfg now cl).cluster).writes,
      ∀ k, w ≠ .create k ∧ w ≠ .update k ∧ w ≠ .delete k) := by
  have h1 := reconcile_running_pass parseQty cfg now cl pvc pod hdel hval hfin
    hphase hpvc hlost hpod himg hrun hready hidle
  have h2 := reconcile_running_pass parseQty cfg now (convergedCluster cfg cl)
    pvc pod hdel hval hfin
    (by simp [convergedCluster, runningStatusOf, updateStatusFn])
    hpvc hlost hpod himg hrun hready hidle
  rw [h1]
  simp only [h2]
  have hsame : ensureWrites cfg (convergedCluster cfg cl) = [] := by
    simp [ensureWrites, convergedCluster, ensureObj_same, buildRole,
      desiredRoleBinding, buildDenyAllNetworkPolicy, buildEgressNetworkPolicy,
      buildIngressFromGatewayNetworkPolicy, desiredSvc, workspaceLabels,
      resolveLLMNamespaces, resolveEgressPorts, ensureObj]
  have hstat : runningStatusOf (convergedCluster cfg cl) = runningStatusOf cl := by
    simp [runningStatusOf, convergedCluster, updateStatusFn]
  have hconv : convergedCluster cfg (convergedCluster cfg cl) =
      convergedCluster cfg cl := by
    simp [convergedCluster, runningStatusOf, updateStatusFn, buildRole,
      desiredRoleBinding, buildDenyAllNetworkPolicy, buildEgressNetworkPolicy,
      buildIngressFromGatewayNetworkPolicy, desiredSvc, workspaceLabels,
      resolveLLMNamespaces, resolveEgressPorts]
  refine ⟨by rw [hsame, hstat]; rfl, by rw [hconv], ?_⟩
  intro w hw k
  rw [hsame, hstat] at hw
  simp only [List.nil_append, List.mem_singleton] at hw
  subst hw
  exact ⟨by simp, by simp, by simp⟩

/-- Operator configuration used in the concrete reconcile scenarios. -/
def cfgDefault : OperatorConfig :=
  { workspaceImage := "workspace:latest".toList, llmNamespaces := [],
    egressPorts := [], idleTimeout := 0 }

/-- The running status of the concrete workspace `alice` in namespace
`dev`. -/
def aliceRunningStatus : WorkspaceStatus :=
  { phase := .running, podName := podName "alice".toList,
    serviceEndpoint := serviceEndpointOf "alice".toList "dev".toList,
    message := "", lastAccessed := none }

/-- The concrete workspace `alice`, valid and already running. -/
def aliceWs : Workspace :=
  { name := "alice".toList, namespaceName := "dev".toList,
    spec := specWithID "alice".toList, status := aliceRunningStatus,
    deletionTimestamp := false, hasFinalizer := true }

/-- Alice's pod, running the desired image and ready. -/
def aliceRunningPod : PodObj :=
  { name := podName "alice".toList, image := "workspace:latest".toList,
    phase := .running, ready := true, reason := "", waitingReason := none,
    waitingMessage := "", deletionTimestamp := false }

/-- A cluster in which every object owned by `alice` already matches its
desired content and the pod is running and ready. -/
def aliceSteadyCluster : Cluster :=
  { ws := aliceWs
    sa := some (workspaceLabels "alice".toList)
    role := some (buildRole aliceWs)
    rb := some (desiredRoleBinding aliceWs)
    npDenyAll := some (buildDenyAllNetworkPolicy aliceWs)
    npEgress := some (buildEgressNetworkPolicy aliceWs
      (resolveLLMNamespaces cfgDefault aliceWs)
      (resolveEgressPorts cfgDefault aliceWs))
    npIngressGw := some (buildIngressFromGatewayNetworkPolicy aliceWs)
    pvc := some { storage := "20Gi".toList, storageClass := [], phase := .bound }
    pod := some aliceRunningPod
    svc := some (desiredSvc aliceWs) }

/-- C2 counterexample to the claim as stated: on a fully converged cluster
with an unchanged running Workspace, the second reconcile pass still issues
a write — the unconditional status update — so the write count is not
zero. -/
theorem reconcile_second_pass_counterexample :
    (reconcile (fun _ => true) cfgDefault 100
      (reconcile (fun _ => true) cfgDefault 100 aliceSteadyCluster).cluster).writes
      ≠ [] ∧
    (reconcile (fun _ => true) cfgDefault 100
      (reconcile (fun _ => true) cfgDefault 100 aliceSteadyCluster).cluster).writes
      = [.statusUpdate aliceRunningStatus] := by
  constructor
  · decide
  · decide

/-- Witness for `reconcile_second_pass_single_status_write` at the concrete
steady cluster. -/
theorem reconcile_second_pass_single_status_write_witness :
    (reconcile (fun _ => true) cfgDefault 100
      (reconcile (fun _ => true) cfgDefault 100 aliceSteadyCluster).cluster).writes =
      [.statusUpdate
        ((reconcile (fun _ => true) cfgDefault 100 aliceSteadyCluster).cluster.ws.status)] :=
  (reconcile_second_pass_single_status_write (fun _ => true) cfgDefault 100
    aliceSteadyCluster
    { storage := "20Gi".toList, storageClass := [], phase := .bound }
    aliceRunningPod
    (by decide) (by decide) (by decide) (by decide) (by decide) (by decide)
    (by decide) (by decide) (by decide) (by decide) (by decide)).1

/-! ### C7: idle eviction -/

/-- The cluster after an idle-eviction pass: ensured objects converged, the
pod deleted, and the status set to Stopped. -/
def idleStoppedCluster (cfg : OperatorConfig) (cl : Cluster) : Cluster :=
  { cl with
    sa := some (workspaceLabels cl.ws.spec.user.id)
    role := some (buildRole cl.ws)
    rb := some (desiredRoleBinding cl.ws)
    npDenyAll := some (buildDenyAllNetworkPolicy cl.ws)
    npEgress := some (buildEgressNetworkPolicy cl.ws
      (resolveLLMNamespaces cfg cl.ws) (resolveEgressPorts cfg cl.ws))
    npIngressGw := some (buildIngressFromGatewayNetworkPolicy cl.ws)
    svc := some (desiredSvc cl.ws)
    pod := none
    ws := { cl.ws with status := stoppedStatusOf cl } }

/-- C7.  With an idle timeout configured, the pod running and ready, and
`now − lastAccessed` exceeding the timeout, a reconcile deletes the pod and
sets the Workspace phase to Stopped with the message "Workspace stopped due
to inactivity": the pass ends with the pod gone, the Stopped status written,
and the delete and status-update writes issued. -/
theorem reconcile_idle_eviction
    (parseQty : List Char → Bool) (cfg : OperatorConfig) (now : Nat)
    (cl : Cluster) (pvc : PVCObj) (pod : PodObj) (t : Nat)
    (hdel : cl.ws.deletionTimestamp = false)
    (hval : validateSpec parseQty cl.ws.spec = none)
    (hfin : cl.ws.hasFinalizer = true)
    (hphase : cl.ws.status.phase ≠ .stopped)
    (hpvc : cl.pvc = some pvc) (hlost : pvc.phase ≠ .lost)
    (hpod : cl.pod = some pod) (himg : pod.image = resolvedImage cfg)
    (hrun : pod.phase = .running) (hready : pod.ready = true)
    (hto : 0 < cfg.idleTimeout)
    (hla : cl.ws.status.lastAccessed = some t)
    (hexp : cfg.idleTimeout < now - t) :
    reconcile parseQty cfg now cl =
      { cluster := idleStoppedCluster cfg cl
        writes := ensureWrites cfg cl ++
          [.delete .pod, .statusUpdate (stoppedStatusOf cl)]
        requeue := .no } ∧
    (reconcile parseQty cfg now cl).cluster.pod = none ∧
    (reconcile parseQty cfg now cl).cluster.ws.status.phase = .stopped ∧
    (reconcile parseQty cfg now cl).cluster.ws.status.message =
      "Workspace stopped due to inactivity" := by
  have heq : reconcile parseQty cfg now cl =
      { cluster := idleStoppedCluster cfg cl
        writes := ensureWrites cfg cl ++
          [.delete .pod, .statusUpdate (stoppedStatusOf cl)]
        requeue := .no } := by
    simp only [reconcile, hdel, hval, hfin, hphase, hpvc, hlost, hpod, himg,
      hrun, hready, hla, idleExpired, hto, hexp, Bool.not_true,
      Bool.false_eq_true, if_false, ne_eq, not_false_iff, if_true, and_true,
      true_and, and_false, false_and, not_true_eq_false, not_false_eq_true,
      ite_false, ite_true, decide_eq_true_eq]
    simp only [idleStoppedCluster, ensureWrites, stoppedStatusOf, ensureObj_fst]
    simp [hdel, hfin, hpvc, List.append_assoc]
  refine ⟨heq, ?_, ?_, ?_⟩ <;>
    rw [heq] <;> rfl

/-- The concrete workspace `bob`, running, last accessed at `t = 0`. -/
def bobWs : Workspace :=
  { name := "bob".toList, namespaceName := "dev".toList,
    spec := specWithID "bob".toList,
    status := { phase := .running, podName := podName "bob".toList,
                serviceEndpoint := serviceEndpointOf "bob".toList "dev".toList,
                message := "", lastAccessed := some 0 },
    deletionTimestamp := false, hasFinalizer := true }

def bobRunningPod : PodObj :=
  { name := podName "bob".toList, image := "workspace:latest".toList,
    phase := .running, ready := true, reason := "", waitingReason := none,
    waitingMessage := "", deletionTimestamp := false }

/-- Bob's converged cluster with a one-hour idle timeout configured. -/
def cfgOneHourIdle : OperatorConfig :=
  { workspaceImage := "workspace:latest".toList, llmNamespaces := [],
    egressPorts := [], idleTimeout := 3600 }

def bobCluster : Cluster :=
  { ws := bobWs
    sa := some (workspaceLabels "bob".toList)
    role := some (buildRole bobWs)
    rb := some (desiredRoleBinding bobWs)
    npDenyAll := some (buildDenyAllNetworkPolicy bobWs)
    npEgress := some (buildEgressNetworkPolicy bobWs
      (resolveLLMNamespaces cfgOneHourIdle bobWs)
      (resolveEgressPorts cfgOneHourIdle bobWs))
    npIngressGw := some (buildIngressFromGatewayNetworkPolicy bobWs)
    pvc := some { storage := "20Gi".toList, storageClass := [], phase := .bound }
    pod := some bobRunningPod
    svc := some (desiredSvc bobWs) }

/-- Witness for `reconcile_idle_eviction`: `bob`, running, last accessed two
hours ago (`now = 7200`, `lastAccessed = 0`) under a one-hour idle timeout,
transitions to Stopped with the pod deleted. -/
theorem reconcile_idle_eviction_witness :
    (reconcile (fun _ => true) cfgOneHourIdle 7200 bobCluster).cluster.pod =
        none ∧
    (reconcile (fun _ => true) cfgOneHourIdle 7200
        bobCluster).cluster.ws.status.phase = .stopped ∧
    (reconcile (fun _ => true) cfgOneHourIdle 7200
        bobCluster).cluster.ws.status.message =
      "Workspace stopped due to inactivity" := by
  have h := reconcile_idle_eviction (fun _ => true) cfgOneHourIdle 7200
    bobCluster
    { storage := "20Gi".toList, storageClass := [], phase := .bound }
    bobRunningPod 0
    (by decide) (by decide) (by decide) (by decide) (by decide) (by decide)
    (by decide) (by decide) (by decide) (by decide) (by decide) (by decide)
    (by decide)
  exact ⟨h.2.1, h.2.2.1, h.2.2.2⟩

/-! ### C9: no idle eviction when lastAccessed is unset -/

theorem updateStatusFn_phase (st : WorkspaceStatus) (p : WorkspacePhase)
    (a b : List Char) (m o : String) : (updateStatusFn st p a b m o).phase = p :=
  rfl

/-- A create or update write is neither a pod deletion nor a Stopped status
write. -/
theorem apiwrite_ok_of_ensure {k : ObjKind} {w : APIWrite}
    (h : w = .create k ∨ w = .update k) :
    w ≠ .delete .pod ∧ ∀ S, w = .statusUpdate S → S.phase ≠ .stopped := by
  rcases h with rfl | rfl <;> exact ⟨by simp, by simp⟩

/-- Every write of the six RBAC/network-policy ensure steps is a create or
an update of that object kind. -/
theorem wPre_ok (cfg : OperatorConfig) (cl : Cluster) {w : APIWrite}
    (h : ((((w ∈ (ensureObj .sa cl.sa (workspaceLabels cl.ws.spec.user.id)).2 ∨
      w ∈ (ensureObj .role cl.role (buildRole cl.ws)).2) ∨
      w ∈ (ensureObj .rb cl.rb (desiredRoleBinding cl.ws)).2) ∨
      w ∈ (ensureObj .npDenyAll cl.npDenyAll (buildDenyAllNetworkPolicy cl.ws)).2) ∨
      w ∈ (ensureObj .npEgress cl.npEgress (buildEgressNetworkPolicy cl.ws
        (resolveLLMNamespaces cfg cl.ws) (resolveEgressPorts cfg cl.ws))).2) ∨
      w ∈ (ensureObj .npIngressGw cl.npIngressGw
        (buildIngressFromGatewayNetworkPolicy cl.ws)).2) :
    w ≠ .delete .pod ∧ ∀ S, w = .statusUpdate S → S.phase ≠ .stopped := by
  rcases h with ((((h | h) | h) | h) | h) | h <;>
    exact apiwrite_ok_of_ensure (mem_ensureObj_writes h)

/-- A status write whose phase is not Stopped satisfies the no-eviction
write predicate. -/
theorem apiwrite_ok_of_status {w : APIWrite} {st : WorkspaceStatus}
    (hw : w = .statusUpdate st) (hp : st.phase ≠ .stopped) :
    w ≠ .delete .pod ∧ ∀ S, w = .statusUpdate S → S.phase ≠ .stopped := by
  subst hw
  refine ⟨by simp, ?_⟩
  intro S hS
  obtain rfl : st = S := by injection hS
  exact hp

/-- C9.  When `status.lastAccessed` is unset (the zero time), the idle
eviction branch never fires: as long as the pod is not deleted for an image
change (its image matches the desired image whenever it exists), no write of
the pass deletes the pod, and no status write of the pass sets the phase to
Stopped — for any configuration, even with an idle timeout configured and
the pod running and ready. -/
theorem reconcile_no_eviction_without_lastAccessed
    (parseQty : List Char → Bool) (cfg : OperatorConfig) (now : Nat)
    (cl : Cluster)
    (hla : cl.ws.status.lastAccessed = none)
    (himg : ∀ p, cl.pod = some p → p.image = resolvedImage cfg) :
    ∀ w ∈ (reconcile parseQty cfg now cl).writes,
      w ≠ .delete .pod ∧ ∀ S, w = .statusUpdate S → S.phase ≠ .stopped := by
  intro w hw
  by_cases hdel : cl.ws.deletionTimestamp = true
  · simp only [reconcile, hdel, if_true, List.mem_singleton] at hw
    subst hw
    exact ⟨by simp, by simp⟩
  · replace hdel : cl.ws.deletionTimestamp = false := by simpa using hdel
    cases hval : validateSpec parseQty cl.ws.spec with
    | some msg =>
      simp only [reconcile, hdel, hval, Bool.false_eq_true, if_false,
        List.mem_singleton] at hw
      exact apiwrite_ok_of_status hw (by simp [updateStatusFn_phase])
    | none =>
      by_cases hfin : cl.ws.hasFinalizer = true
      swap
      · replace hfin : cl.ws.hasFinalizer = false := by simpa using hfin
        simp only [reconcile, hdel, hval, hfin, Bool.false_eq_true, if_false,
          Bool.not_false, if_true, List.mem_singleton] at hw
        subst hw
        exact ⟨by simp, by simp⟩
      · by_cases hstop : cl.ws.status.phase = .stopped
        · simp only [reconcile, hdel, hval, hfin, hstop, Bool.false_eq_true,
            if_false, Bool.not_true, if_true, List.not_mem_nil] at hw
        · cases hpvc : cl.pvc with
          | none =>
            simp only [reconcile, hdel, hval, hfin, hstop, hpvc,
              Bool.false_eq_true, if_false, Bool.not_true, ite_false,
              ite_true, List.mem_append, List.mem_singleton] at hw
            rcases hw with h | h
            · exact wPre_ok cfg cl h
            · subst h; exact ⟨by simp, by simp⟩
          | some pvc =>
            by_cases hlost : pvc.phase = .lost
            · simp only [reconcile, hdel, hval, hfin, hstop, hpvc, hlost,
                Bool.false_eq_true, if_false, Bool.not_true, ite_false,
                ite_true, List.mem_append, List.mem_singleton] at hw
              rcases hw with h | h
              · exact wPre_ok cfg cl h
              · exact apiwrite_ok_of_status h (by simp [updateStatusFn_phase])
            · cases hpod : cl.pod with
              | none =>
                simp only [reconcile, hdel, hval, hfin, hstop, hpvc, hlost,
                  hpod, Bool.false_eq_true, if_false, Bool.not_true,
                  ite_false, ite_true, List.mem_append,
                  List.mem_singleton] at hw
                rcases hw with h | h
                · exact wPre_ok cfg cl h
                · subst h; exact ⟨by simp, by simp⟩
              | some pod =>
                have himg2 := himg pod hpod
                have hnoimg : ¬(pod.image ≠ resolvedImage cfg ∧
                    ¬pod.deletionTimestamp = true) := by simp [himg2]
                have hnoidle : ¬(pod.phase = .running ∧ pod.ready = true ∧
                    0 < cfg.idleTimeout ∧
                    idleExpired cfg.idleTimeout now
                      cl.ws.status.lastAccessed = true) := by
                  simp [hla, idleExpired]
                simp only [reconcile, hdel, hval, hfin, hstop, hpvc, hlost,
                  hpod, if_neg hnoimg, if_neg hnoidle, Bool.false_eq_true,
                  if_false, Bool.not_true, ite_false, ite_true] at hw
                by_cases hrr : pod.phase = .running ∧ pod.ready = true
                · rw [if_pos hrr] at hw
                  simp only [List.mem_append, List.mem_singleton] at hw
                  rcases hw with (h | h) | h
                  · exact wPre_ok cfg cl h
                  · exact apiwrite_ok_of_ensure (mem_ensureObj_writes h)
                  · exact apiwrite_ok_of_status h (by simp [updateStatusFn_phase])
                · rw [if_neg hrr] at hw
                  by_cases hpf : pod.phase = .failed
                  · rw [if_pos hpf] at hw
                    simp only [List.mem_append, List.mem_singleton] at hw
                    rcases hw with (h | h) | h
                    · exact wPre_ok cfg cl h
                    · exact apiwrite_ok_of_ensure (mem_ensureObj_writes h)
                    · exact apiwrite_ok_of_status h
                        (by simp [updateStatusFn_phase])
                  · rw [if_neg hpf] at hw
                    cases hwr : pod.waitingReason with
                    | some r =>
                      rw [hwr] at hw
                      by_cases hbad : r ∈ badWaitingReasons
                      · simp only [if_pos hbad, List.mem_append,
                          List.mem_singleton] at hw
                        rcases hw with (h | h) | h
                        · exact wPre_ok cfg cl h
                        · exact apiwrite_ok_of_ensure (mem_ensureObj_writes h)
                        · exact apiwrite_ok_of_status h
                            (by simp [updateStatusFn_phase])
                      · simp only [if_neg hbad, List.mem_append,
                          List.mem_singleton] at hw
                        rcases hw with (h | h) | h
                        · exact wPre_ok cfg cl h
                        · exact apiwrite_ok_of_ensure (mem_ensureObj_writes h)
                        · exact apiwrite_ok_of_status h
                            (by simp [updateStatusFn_phase])
                    | none =>
                      rw [hwr] at hw
                      simp only [List.mem_append, List.mem_singleton] at hw
                      rcases hw with (h | h) | h
                      · exact wPre_ok cfg cl h
                      · exact apiwrite_ok_of_ensure (mem_ensureObj_writes h)
                      · exact apiwrite_ok_of_status h
                          (by simp [updateStatusFn_phase])

/-- Witness for `reconcile_no_eviction_without_lastAccessed`: on alice's
steady cluster (lastAccessed unset, idle timeout irrelevant) the status
write of the pass does not delete the pod and does not set Stopped. -/
theorem reconcile_no_eviction_without_lastAccessed_witness :
    (APIWrite.statusUpdate aliceRunningStatus ≠ .delete .pod) ∧
    aliceRunningStatus.phase ≠ .stopped := by
  have h := reconcile_no_eviction_without_lastAccessed (fun _ => true)
    cfgDefault 100 aliceSteadyCluster (by decide)
    (by
      intro p hp
      have h2 : some aliceRunningPod = some p := hp
      have h3 : p = aliceRunningPod := (Option.some.inj h2).symm
      subst h3
      decide)
  obtain ⟨h1, h2⟩ := h (.statusUpdate aliceRunningStatus) (by decide)
  exact ⟨h1, h2 aliceRunningStatus rfl⟩

end DevPlane
